import Mathlib

/-!
# MovieShreddle — verification of the game-session engine

Shallow embedding of the core of the MovieShreddle poster-guessing game:
the title normalizer, guess evaluator, deterministic daily picker, strip
effect generator, progress ledger (localStorage) and the session state
machine of `poster-game.component.ts`, together with the deterministic
picker of `movie.service.ts`.

Modelling conventions:
* JS strings are Lean `String`s (operated on mostly through `List Char`);
  the handful of built-in Unicode operations the component calls
  (`toLowerCase`, `normalize("NFD")`, `trim`) are modelled on the
  Basic-Latin/Latin-1 range that the game's French/English titles use and
  are the identity elsewhere.
* JS numbers holding integers are `Int`/`Nat`; `Math.random()` values and
  the values of `Math.sin` are rationals (`ℚ`), supplied as explicit
  streams/functions, since the code's use of them never depends on
  float-specific behaviour.
* `localStorage` is a flat `String → Option String` map; asynchronous
  completions (catalog fetches) are explicit events of the state machine.
-/

/-! ## JS character / string primitives -/

/-- `String.prototype.toLowerCase` restricted to Basic Latin and Latin-1
(`A`–`Z` ↦ `a`–`z`, `À`–`Þ` except `×` ↦ `à`–`þ`), identity elsewhere. -/
def jsToLower (c : Char) : Char :=
  if 65 ≤ c.toNat ∧ c.toNat ≤ 90 then Char.ofNat (c.toNat + 32)
  else if 192 ≤ c.toNat ∧ c.toNat ≤ 222 ∧ c.toNat ≠ 215 then Char.ofNat (c.toNat + 32)
  else c

/-- ASCII decimal digit (`\d` of the JS regexes used by the component). -/
def isDigit (c : Char) : Bool := 48 ≤ c.toNat && c.toNat ≤ 57

/-- A lowercase ASCII letter or digit: the character class kept by the
`replace(/[^a-z0-9]/g, "")` step of `normalizeTitle`. -/
def isLowerAlnum (c : Char) : Bool :=
  (97 ≤ c.toNat && c.toNat ≤ 122) || (48 ≤ c.toNat && c.toNat ≤ 57)

/-- A combining diacritical mark, the class `[̀-ͯ]` removed after
NFD decomposition. -/
def isCombining (c : Char) : Bool := 768 ≤ c.toNat && c.toNat ≤ 879

/-- The whitespace characters relevant to `String.prototype.trim` (space,
tab, LF, VT, FF, CR, NBSP, BOM). -/
def jsIsWhitespace (c : Char) : Bool :=
  c.toNat = 32 || c.toNat = 9 || c.toNat = 10 || c.toNat = 11 || c.toNat = 12 ||
  c.toNat = 13 || c.toNat = 160 || c.toNat = 65279

/-- `String.prototype.trim` on a character list. -/
def jsTrim (l : List Char) : List Char :=
  ((l.dropWhile jsIsWhitespace).reverse.dropWhile jsIsWhitespace).reverse

/-- Unicode NFD decomposition, tabulated for the precomposed Latin-1
lowercase letters (the inputs reach this function after `jsToLower`);
identity on everything else. -/
def nfdChar (c : Char) : List Char :=
  let n := c.toNat
  if n < 192 then [c]
  else if n = 224 then [Char.ofNat 97, Char.ofNat 768]    -- à
  else if n = 225 then [Char.ofNat 97, Char.ofNat 769]    -- á
  else if n = 226 then [Char.ofNat 97, Char.ofNat 770]    -- â
  else if n = 227 then [Char.ofNat 97, Char.ofNat 771]    -- ã
  else if n = 228 then [Char.ofNat 97, Char.ofNat 776]    -- ä
  else if n = 229 then [Char.ofNat 97, Char.ofNat 778]    -- å
  else if n = 231 then [Char.ofNat 99, Char.ofNat 807]    -- ç
  else if n = 232 then [Char.ofNat 101, Char.ofNat 768]   -- è
  else if n = 233 then [Char.ofNat 101, Char.ofNat 769]   -- é
  else if n = 234 then [Char.ofNat 101, Char.ofNat 770]   -- ê
  else if n = 235 then [Char.ofNat 101, Char.ofNat 776]   -- ë
  else if n = 236 then [Char.ofNat 105, Char.ofNat 768]   -- ì
  else if n = 237 then [Char.ofNat 105, Char.ofNat 769]   -- í
  else if n = 238 then [Char.ofNat 105, Char.ofNat 770]   -- î
  else if n = 239 then [Char.ofNat 105, Char.ofNat 776]   -- ï
  else if n = 241 then [Char.ofNat 110, Char.ofNat 771]   -- ñ
  else if n = 242 then [Char.ofNat 111, Char.ofNat 768]   -- ò
  else if n = 243 then [Char.ofNat 111, Char.ofNat 769]   -- ó
  else if n = 244 then [Char.ofNat 111, Char.ofNat 770]   -- ô
  else if n = 245 then [Char.ofNat 111, Char.ofNat 771]   -- õ
  else if n = 246 then [Char.ofNat 111, Char.ofNat 776]   -- ö
  else if n = 249 then [Char.ofNat 117, Char.ofNat 768]   -- ù
  else if n = 250 then [Char.ofNat 117, Char.ofNat 769]   -- ú
  else if n = 251 then [Char.ofNat 117, Char.ofNat 770]   -- û
  else if n = 252 then [Char.ofNat 117, Char.ofNat 776]   -- ü
  else if n = 253 then [Char.ofNat 121, Char.ofNat 769]   -- ý
  else if n = 255 then [Char.ofNat 121, Char.ofNat 776]   -- ÿ
  else [c]

/-- `String.prototype.substring(a, b)` (clamps to the length, swaps the
bounds when given in reverse order). -/
def jsSubstring (s : String) (a b : Nat) : String :=
  String.mk (((s.toList).drop (min a b)).take (max a b - min a b))

/-! ## Title Normalizer (`stripLeadingArticles`, `normalizeTitle`) -/

/-- The article alternation of the regex
`/^(the|a|an|le|la|les|un|une|des|el|los|las|il|lo|gli|i)\s+/`,
in source order (JS tries alternatives left to right). -/
def articleWords : List (List Char) :=
  ["the", "a", "an", "le", "la", "les", "un", "une", "des", "el",
   "los", "las", "il", "lo", "gli", "i"].map String.toList

/-- The elision replacement `replace(/^l['`]/, '')`: drop a leading `l`
followed by an apostrophe (39) or backquote (96). -/
def dropElision (l : List Char) : List Char :=
  match l with
  | c0 :: c1 :: rest =>
    if c0.toNat = 108 ∧ (c1.toNat = 39 ∨ c1.toNat = 96) then rest else l
  | _ => l

/-- One article alternative matches at the start iff the word is a prefix
and is followed by at least one whitespace character (`\s+`). -/
def articleMatches (l : List Char) (w : List Char) : Bool :=
  l.take w.length == w && ((l.drop w.length).head?.elim false jsIsWhitespace)

/-- `stripLeadingArticles` from the component: trim, lowercase, drop an
elided `l'`, then drop the first matching article together with the
whitespace run the regex consumes, and trim again. -/
def stripLeadingArticles (l : List Char) : List Char :=
  let trimmed := (jsTrim l).map jsToLower
  let noElision := dropElision trimmed
  let afterArticle :=
    match articleWords.find? (articleMatches noElision) with
    | some w => (noElision.drop w.length).dropWhile jsIsWhitespace
    | none => noElision
  jsTrim afterArticle

/-- The body of `normalizeTitle` on a character list: optional article
stripping, lowercasing, NFD decomposition, removal of combining marks and
of every character outside `[a-z0-9]`. -/
def normalizeList (l : List Char) (dropArticles : Bool) : List Char :=
  let base := if dropArticles then stripLeadingArticles l else l
  (((base.map jsToLower).flatMap nfdChar).filter (fun c => !isCombining c)).filter isLowerAlnum

/-- `normalizeTitle(str, dropArticles)` from the component. -/
def normalizeTitle (s : String) (dropArticles : Bool) : String :=
  String.mk (normalizeList s.toList dropArticles)

/-! ## Guess extraction and evaluation (`extractGuess`, `validateGuess` core) -/

/-- First match of the year regex `/(19|20)\d{2}/`: scan positions left to
right, at each position accept `19` or `20` followed by two digits. -/
def findYear : List Char → Option (List Char)
  | [] => none
  | c :: rest =>
    match rest with
    | c2 :: c3 :: c4 :: _ =>
      if ((c.toNat = 49 ∧ c2.toNat = 57) ∨ (c.toNat = 50 ∧ c2.toNat = 48)) ∧
         isDigit c3 ∧ isDigit c4 then
        some [c, c2, c3, c4]
      else findYear rest
    | _ => none

/-- `String.prototype.replace(pat, '')` with a plain-string pattern:
remove the first occurrence of `pat`. -/
def removeFirstOcc : List Char → List Char → List Char
  | [], _ => []
  | c :: rest, pat =>
    if (c :: rest).take pat.length = pat then (c :: rest).drop pat.length
    else c :: removeFirstOcc rest pat

/-- `extractGuess(raw)`: pull out a 4-digit `19xx`/`20xx` year (first
occurrence), delete it from the text, strip parentheses, trim. Returns
`(title, year)` with `year = ""` when no year token is present. -/
def extractGuess (raw : String) : String × String :=
  let year := (findYear raw.toList).getD []
  let title1 := if year.isEmpty then raw.toList else removeFirstOcc raw.toList year
  let title2 := title1.filter (fun c => !(c.toNat = 40 || c.toNat = 41))
  (String.mk (jsTrim title2), String.mk year)

/-- The item shape the evaluator sees (the component's `Movie`, with TV
shows already mapped onto it by `mapTvToMovie`). `original_title` is the
optional `original_title`/`original_name` field. -/
structure MovieT where
  id : Int
  title : String
  poster_path : String
  release_date : String
  original_title : Option String
deriving DecidableEq, Repr

/-- `movie.release_date?.substring(0, 4)`, with the JS `|| ''` fallback
(an absent date is modelled by `""`, whose substring is again `""`). -/
def yearOf (date : String) : String := jsSubstring date 0 4

/-- The pure decision core of `validateGuess` (its guess-classification
part, after the empty-guess skip was ruled out): the autocomplete path
compares ids, then years, then normalized titles; the free-text path
extracts a year, requires year compatibility, and compares the normalized
fragment against the display and original titles (with and without
articles), also accepting the literal `"win"`. -/
def evaluateGuess (rawGuess : String) (selected : Option MovieT)
    (target : Option MovieT) : Bool :=
  let eg := extractGuess rawGuess
  let guessTitle := eg.1
  let guessYear := eg.2
  let targetTitle := (target.map (·.title)).getD ""
  let targetOriginalTitle := (target.bind (·.original_title)).getD ""
  let targetYear := (target.map (fun t => yearOf t.release_date)).getD ""
  let guessYearMatches := guessYear == "" || targetYear == "" || guessYear == targetYear
  match selected, target with
  | some sel, some tgt =>
    let selectedYear := yearOf sel.release_date
    if sel.id = tgt.id then true
    else if selectedYear == "" || targetYear == "" || selectedYear == targetYear then
      (normalizeTitle sel.title false == normalizeTitle targetTitle false) ||
      (normalizeTitle sel.title true == normalizeTitle targetTitle true)
    else false
  | _, _ =>
    let guessNorm := normalizeTitle guessTitle false
    let guessNoArticle := normalizeTitle guessTitle true
    let targetNorm := normalizeTitle targetTitle false
    let targetNoArticle := normalizeTitle targetTitle true
    let originalNorm := normalizeTitle targetOriginalTitle false
    let originalNoArticle := normalizeTitle targetOriginalTitle true
    guessYearMatches &&
      (guessNorm == targetNorm ||
       (!(originalNorm == "") && guessNorm == originalNorm) ||
       guessNoArticle == targetNoArticle ||
       (!(originalNoArticle == "") && guessNoArticle == originalNoArticle) ||
       guessNorm == "win")

/-! ## `parseInt` / `toString` (streak (de)serialization) -/

/-- Decimal value of a digit list (most significant first). -/
def natOfDigits (l : List Char) : Nat :=
  l.foldl (fun a c => a * 10 + (c.toNat - 48)) 0

/-- `parseInt(s, 10)`: skip whitespace, optional sign, read a maximal run
of decimal digits. The component only ever parses values it wrote itself
with `Number.prototype.toString` (canonical decimal strings, with `'0'`
substituted for a missing key), so the JS `NaN` outcome for digit-free
input is mapped to `0` here; no reachable store hits that case. -/
def parseIntD (s : String) : Int :=
  let l := jsTrim s.toList
  match l with
  | [] => 0
  | c :: rest =>
    if c.toNat = 45 then
      let ds := (rest.takeWhile isDigit)
      if ds.isEmpty then 0 else -(natOfDigits ds : Int)
    else if c.toNat = 43 then
      let ds := (rest.takeWhile isDigit)
      if ds.isEmpty then 0 else (natOfDigits ds : Int)
    else
      let ds := ((c :: rest).takeWhile isDigit)
      if ds.isEmpty then 0 else (natOfDigits ds : Int)

/-! ## Deterministic Picker (`movie.service.ts`) -/

/-- `pseudoRandom(seed)`: the fractional part of `sin(seed) * 10000`,
scaled to a 6-digit integer. `Math.sin` is an opaque deterministic
function of the seed; it is abstracted as an arbitrary fixed function
`sinq : ℤ → ℚ`, which none of the picker's stated properties depend on. -/
def pseudoRandom (sinq : ℤ → ℚ) (seed : ℤ) : ℤ :=
  ⌊(sinq seed * 10000 - (⌊sinq seed * 10000⌋ : ℤ)) * 1000000⌋

/-- The seed base of `pickAndStoreDailyMovie` / `pickAndStoreDailyTvShow`:
`year * 10000 + (month + 1) * 100 + day + seedOffset` (here `monthPlus1`
is the already 1-based month). -/
def seedBase (year monthPlus1 day seedOffset : ℤ) : ℤ :=
  year * 10000 + monthPlus1 * 100 + day + seedOffset

/-- The page chosen for a seed base: `pseudoRandom(seedBase + 9999) % 50 + 1`. -/
def dailyPage (sinq : ℤ → ℚ) (sb : ℤ) : ℤ :=
  pseudoRandom sinq (sb + 9999) % 50 + 1

/-- The in-page index: `pseudoRandom(seedBase) % movies.length`, defined
when the fetched page is nonempty (the code throws otherwise). -/
def dailyIndex (sinq : ℤ → ℚ) (sb : ℤ) (itemCount : ℕ) : Option ℤ :=
  if itemCount = 0 then none else some (pseudoRandom sinq sb % (itemCount : ℤ))

/-- The `(page, index)` pair of the deterministic picker for one seed base
and one fetched page content size. -/
def pickDaily (sinq : ℤ → ℚ) (sb : ℤ) (itemCount : ℕ) : ℤ × Option ℤ :=
  (dailyPage sinq sb, dailyIndex sinq sb itemCount)

/-- The daily mode offset (`getDailyMovie` / `getDailyTvShow`). -/
def dailyOffset : ℤ := 0

/-- The hard-daily mode offset (`getDailyMovieHard` / `getDailyTvShowHard`). -/
def dailyHardOffset : ℤ := 12345

/-! ## Strip Effect Generator (`generateStripEffects`) -/

/-- The `StripEffect` union: `'' | 'rotate180' | 'grayscale' | 'blackout'`. -/
inductive StripEffect where
  | none
  | rotate180
  | grayscale
  | blackout
deriving DecidableEq, Repr

/-- The bucket map of `generateStripEffects`: one uniform draw
`rand ∈ [0,1)` is mapped through the thresholds `0.4`, `0.6`, `0.8`. -/
def effectForRand (rand : ℚ) : StripEffect :=
  if rand < 4/10 then .none
  else if rand < 6/10 then .rotate180
  else if rand < 8/10 then .grayscale
  else .blackout

/-- `generateStripEffects` for a strip count, with the `Math.random()`
draws supplied as a stream (`rands i` is the draw of iteration `i`). -/
def generateStripEffects (count : Nat) (rands : Nat → ℚ) : List StripEffect :=
  (List.range count).map (fun i => effectForRand (rands i))

/-- Modelled from the spec (for comparison only): the bucket map the spec
sentence describes — four equal-probability buckets of width `0.25` in the
order none, flip, desaturate, obscure. -/
def effectForRandSpec (rand : ℚ) : StripEffect :=
  if rand < 1/4 then .none
  else if rand < 2/4 then .rotate180
  else if rand < 3/4 then .grayscale
  else .blackout

/-! ## Durable key-value store (`localStorage`) -/

/-- `localStorage` as a flat string-keyed map. -/
def Store : Type := String → Option String

/-- `localStorage.getItem` (missing key ↦ `null` ↦ `none`). -/
def Store.getItem (s : Store) (k : String) : Option String := s k

/-- `localStorage.setItem`. -/
def Store.setItem (s : Store) (k v : String) : Store :=
  fun q => if q = k then some v else s q

/-- `localStorage.removeItem`. -/
def Store.removeItem (s : Store) (k : String) : Store :=
  fun q => if q = k then none else s q

/-- A completely empty store (fresh browser profile). -/
def Store.emptyStore : Store := fun _ => none

/-- Read a streak counter: `parseInt(localStorage.getItem(k) || '0', 10)`. -/
def readIntKey (s : Store) (k : String) : Int :=
  parseIntD ((s.getItem k).getD "0")

/-! ## Modes, tabs, storage keys -/

/-- The four tabs: `'daily' | 'hard' | 'infinite' | 'infinite-hard'`. -/
inductive Tab where
  | daily
  | hard
  | infinite
  | infiniteHard
deriving DecidableEq, Repr

/-- The media kinds: `'movie' | 'tv'`. -/
inductive Media where
  | movie
  | tv
deriving DecidableEq, Repr

/-- The game status union: `'loading' | 'playing' | 'won' | 'lost'`. -/
inductive Status where
  | loading
  | playing
  | won
  | lost
deriving DecidableEq, Repr

/-- The streak-mode parameter `'infinite' | 'infinite-hard'`. -/
inductive InfMode where
  | infinite
  | infiniteHard
deriving DecidableEq, Repr

/-- The daily-tab parameter `'daily' | 'hard'`. -/
inductive DTab where
  | daily
  | hard
deriving DecidableEq, Repr

/-- `activeTab() === 'infinite-hard' ? 'infinite-hard' : 'infinite'`. -/
def infModeOfTab (t : Tab) : InfMode :=
  if t = .infiniteHard then .infiniteHard else .infinite

/-- The daily tabs, as an option (`'daily' | 'hard'` narrowing). -/
def dTabOf : Tab → Option DTab
  | .daily => some .daily
  | .hard => some .hard
  | _ => none

/-- `t` is one of the infinite tabs. -/
def isInfiniteTab (t : Tab) : Prop := t = Tab.infinite ∨ t = Tab.infiniteHard

instance (t : Tab) : Decidable (isInfiniteTab t) := by
  unfold isInfiniteTab; infer_instance

/-- The serialized media kind (`LS_MEDIA_MODE` values). -/
def mediaStr : Media → String
  | .movie => "movie"
  | .tv => "tv"

/-- The triple of streak storage keys (`getStreakStorageKeys`);
`todayKey` is a key prefix to which the day key is appended. -/
structure StreakKeys where
  currentKey : String
  todayKey : String
  allTimeKey : String
deriving DecidableEq, Repr

/-- `getStreakStorageKeys(mode)` (the media kind is read from the
component state in the source; here it is an explicit argument). -/
def getStreakStorageKeys (mode : InfMode) (media : Media) : StreakKeys :=
  let isTv := media = Media.tv
  match mode with
  | .infinite =>
    ⟨if isTv then "infiniteCurrentStreakTv" else "infiniteCurrentStreak",
     if isTv then "infiniteTodayBestTv_" else "infiniteTodayBest_",
     if isTv then "infiniteAllTimeBestTv" else "infiniteAllTimeBest"⟩
  | .infiniteHard =>
    ⟨if isTv then "infiniteHardCurrentStreakTv" else "infiniteHardCurrentStreak",
     if isTv then "infiniteHardTodayBestTv_" else "infiniteHardTodayBest_",
     if isTv then "infiniteHardAllTimeBestTv" else "infiniteHardAllTimeBest"⟩

/-- `getDailyStoragePrefix(tab, type)`: the win/loss flag key prefix for a
daily tab and media kind (the day key is appended to it). -/
def getDailyStoragePrefix (tab : DTab) (win : Bool) (media : Media) : String :=
  let base :=
    match tab, win with
    | .daily, true => "dailyGameWon_"
    | .daily, false => "dailyGameLost_"
    | .hard, true => "dailyHardGameWon_"
    | .hard, false => "dailyHardGameLost_"
  base ++ (if media = Media.tv then "tv" else "movie") ++ "_"

/-- `formatDateForDisplay(key)`: `DD/MM/YY` from a `YYYYMMDD` day key. -/
def formatDateForDisplay (key : String) : String :=
  jsSubstring key 6 8 ++ "/" ++ jsSubstring key 4 6 ++ "/" ++ jsSubstring key 2 4

/-! ## Session state -/

/-- One entry of the wrong-guess list (`WrongGuess`); `year` is absent for
the skip sentinel. -/
structure WrongGuess where
  guess : String
  year : Option String
deriving DecidableEq, Repr

/-- One entry of the seen-recently blob (`SeenMovie`). -/
structure SeenMovie where
  movieId : Int
  expiry : Int
deriving DecidableEq, Repr

/-- The progression schedule `[100, 75, 50, 25, 10]`. -/
def progressionSteps : List Nat := [100, 75, 50, 25, 10]

/-- The component state the session engine operates on. UI-only fields
(suggestion list, settings dialog, API-key prompt, IMDb link) are omitted;
`fetchImdbLink` is an absorbed best-effort external lookup and is a no-op
here. The seen-recently JSON blobs are modelled as typed lists held next
to the string store (their (de)serialization is external to the engine). -/
structure GameState where
  activeTab : Tab
  mediaMode : Media
  movie : Option MovieT
  currentStepIndex : Nat
  userGuess : String
  gameStatus : Status
  wrongGuesses : List WrongGuess
  showGiveUpConfirm : Bool
  showLeaveConfirm : Bool
  pendingTab : Option Tab
  pendingMediaMode : Option Media
  selectedMovieFromAutocomplete : Option MovieT
  dailyCompleted : Bool
  dailyCompletedDate : String
  currentStreak : Int
  todayBestStreak : Int
  allTimeBestStreak : Int
  stripEffects : List StripEffect
  infiniteMemoryEnabled : Bool
  seenMovies : List SeenMovie
  seenTv : List SeenMovie
  store : Store

/-- `currentStripCount`: `progressionSteps[currentStepIndex]`. An
out-of-bounds index yields `undefined` in JS, which makes the generation
loop produce an empty list; `getD 0` reproduces exactly that downstream
behaviour (the bounds invariant proved below shows it never happens). -/
def currentStripCount (st : GameState) : Nat :=
  progressionSteps.getD st.currentStepIndex 0

/-- Regenerate `stripEffects` for the current strip count
(`generateStripEffects()` as a state update). -/
def generateStripEffectsOn (rands : Nat → ℚ) (st : GameState) : GameState :=
  { st with stripEffects := generateStripEffects (currentStripCount st) rands }

/-- `loadStreakData(mode)`. -/
def loadStreakDataFn (today : String) (mode : InfMode) (st : GameState) : GameState :=
  let keys := getStreakStorageKeys mode st.mediaMode
  { st with
    currentStreak := readIntKey st.store keys.currentKey
    todayBestStreak := readIntKey st.store (keys.todayKey ++ today)
    allTimeBestStreak := readIntKey st.store keys.allTimeKey }

/-- `saveStreakData(mode)`. -/
def saveStreakDataFn (today : String) (mode : InfMode) (st : GameState) : GameState :=
  let keys := getStreakStorageKeys mode st.mediaMode
  let s1 := st.store.setItem keys.currentKey (toString st.currentStreak)
  let s2 := s1.setItem (keys.todayKey ++ today) (toString st.todayBestStreak)
  let s3 := s2.setItem keys.allTimeKey (toString st.allTimeBestStreak)
  { st with store := s3 }

/-- `markDailyWin(tab)`. -/
def markDailyWinFn (today : String) (tab : DTab) (st : GameState) : GameState :=
  let lsKey := getDailyStoragePrefix tab true st.mediaMode
  let lsLostKey := getDailyStoragePrefix tab false st.mediaMode
  { st with
    store := (st.store.setItem (lsKey ++ today) "true").removeItem (lsLostKey ++ today)
    dailyCompleted := true
    dailyCompletedDate := formatDateForDisplay today }

/-- `markDailyLoss(tab)`. -/
def markDailyLossFn (today : String) (tab : DTab) (st : GameState) : GameState :=
  let lsKey := getDailyStoragePrefix tab false st.mediaMode
  let lsWinKey := getDailyStoragePrefix tab true st.mediaMode
  { st with
    store := (st.store.setItem (lsKey ++ today) "true").removeItem (lsWinKey ++ today) }

/-- `syncDailyOutcome(tab)`: re-derive completion state and status from
the persisted win/loss flags alone. -/
def syncDailyOutcomeFn (today : String) (tab : DTab) (st : GameState) : GameState :=
  let lsWinKey := getDailyStoragePrefix tab true st.mediaMode
  let lsLostKey := getDailyStoragePrefix tab false st.mediaMode
  let dailyWon := st.store.getItem (lsWinKey ++ today)
  let dailyLost := st.store.getItem (lsLostKey ++ today)
  let st1 := { st with dailyCompleted := false }
  if dailyWon = some "true" then
    { st1 with
      dailyCompleted := true
      dailyCompletedDate := formatDateForDisplay today
      gameStatus := .won }
  else if dailyLost = some "true" then
    { st1 with
      dailyCompletedDate := formatDateForDisplay today
      gameStatus := .lost }
  else st1

/-! ## Session state machine operations -/

/-- The seen-recently list for the current media kind
(`getSeenRandomMovies`, already filtered for expiry on read). -/
def getSeenRandomMoviesFn (now : Int) (st : GameState) : List SeenMovie :=
  (match st.mediaMode with
   | .tv => st.seenTv
   | .movie => st.seenMovies).filter (fun s => s.expiry > now)

/-- `addSeenRandomMovie(movieId)`: append with a 2-day expiry and write
the whole list back. -/
def addSeenRandomMovieFn (now : Int) (movieId : Int) (st : GameState) : GameState :=
  let seen := getSeenRandomMoviesFn now st
  let upd := seen ++ [⟨movieId, now + 2 * 24 * 60 * 60 * 1000⟩]
  match st.mediaMode with
  | .tv => { st with seenTv := upd }
  | .movie => { st with seenMovies := upd }

/-- `markCurrentMovieSeen()`. -/
def markCurrentMovieSeenFn (now : Int) (st : GameState) : GameState :=
  match st.movie with
  | none => st
  | some m =>
    if isInfiniteTab st.activeTab ∧ st.infiniteMemoryEnabled then
      addSeenRandomMovieFn now m.id st
    else st

/-- `nextStep()`: advance the attempt index when strictly below the last
progression step (regenerating hard-variant effects while playing),
otherwise transition to lost and update the ledger. -/
def nextStepFn (today : String) (now : Int) (rands : Nat → ℚ) (st : GameState) : GameState :=
  if st.currentStepIndex < progressionSteps.length - 1 then
    let st1 := { st with currentStepIndex := st.currentStepIndex + 1 }
    if (st1.activeTab = Tab.hard ∨ st1.activeTab = Tab.infiniteHard) ∧
        st1.gameStatus = Status.playing then
      generateStripEffectsOn rands st1
    else st1
  else
    let st1 := markCurrentMovieSeenFn now { st with gameStatus := .lost }
    if isInfiniteTab st1.activeTab then
      saveStreakDataFn today (infModeOfTab st1.activeTab) { st1 with currentStreak := 0 }
    else
      match dTabOf st1.activeTab with
      | some dt => markDailyLossFn today dt st1
      | none => st1

/-- The trailing `userGuess.set(''); selectedMovieFromAutocomplete.set(null)`
of `validateGuess()`. -/
def clearGuessInput (st : GameState) : GameState :=
  { st with userGuess := "", selectedMovieFromAutocomplete := none }

/-- The `isCorrect` branch of `validateGuess()`: status `won`, item marked
seen, then either the streak triple is bumped and persisted (infinite
variants) or the day is marked won (daily variants). -/
def validateGuessWin (today : String) (now : Int) (st : GameState) : GameState :=
  let st1 := markCurrentMovieSeenFn now { st with gameStatus := .won }
  if isInfiniteTab st1.activeTab then
    let mode := infModeOfTab st1.activeTab
    let newStreak := st1.currentStreak + 1
    let tb := if newStreak > st1.todayBestStreak then newStreak else st1.todayBestStreak
    let ab := if newStreak > st1.allTimeBestStreak then newStreak else st1.allTimeBestStreak
    saveStreakDataFn today mode
      { st1 with currentStreak := newStreak, todayBestStreak := tb, allTimeBestStreak := ab }
  else
    match dTabOf st1.activeTab with
    | some dt => markDailyWinFn today dt st1
    | none => st1

/-- The incorrect branch of `validateGuess()`: append the wrong guess
(label and year as computed in the source) and advance the attempt. -/
def validateGuessWrong (today : String) (now : Int) (rands : Nat → ℚ)
    (st : GameState) : GameState :=
  let eg := extractGuess st.userGuess
  let selYear :=
    (st.selectedMovieFromAutocomplete.map (fun m => yearOf m.release_date)).getD ""
  let year := if selYear ≠ "" then selYear else eg.2
  let guessLabel := if (jsTrim eg.1.toList).isEmpty then st.userGuess else eg.1
  nextStepFn today now rands
    { st with wrongGuesses := st.wrongGuesses ++ [⟨guessLabel, some year⟩] }

/-- `validateGuess()`: the full submit handler — skip on empty input,
otherwise classify via `evaluateGuess` and either record the win (streak
or daily ledger) or append a wrong guess and advance. -/
def validateGuessFn (today : String) (now : Int) (rands : Nat → ℚ) (st : GameState) : GameState :=
  if st.gameStatus ≠ Status.playing then st
  else if (jsTrim st.userGuess.toList).isEmpty then
    nextStepFn today now rands
      { st with wrongGuesses := st.wrongGuesses ++ [⟨"SKIPPED", none⟩] }
  else if evaluateGuess st.userGuess st.selectedMovieFromAutocomplete st.movie then
    clearGuessInput (validateGuessWin today now st)
  else
    clearGuessInput (validateGuessWrong today now rands st)

/-- The synchronous part of `loadInfiniteMovie()` (the fetch completion is
a separate event). -/
def loadInfiniteMovieSyncFn (st : GameState) : GameState :=
  { st with
    gameStatus := .loading
    currentStepIndex := 0
    userGuess := ""
    wrongGuesses := []
    showGiveUpConfirm := false
    selectedMovieFromAutocomplete := none
    stripEffects := [] }

/-- `switchTab(tab, force)` — the synchronous part: reset the per-puzzle
state, and either start an infinite load (streaks re-read from storage) or
re-derive the daily outcome; the fetched item arrives via an event. -/
def switchTabFn (today : String) (tab : Tab) (force : Bool) (st : GameState) : GameState :=
  if ¬force ∧ st.activeTab = tab then st
  else
    let st1 := { st with
      activeTab := tab
      gameStatus := Status.loading
      currentStepIndex := 0
      userGuess := ""
      wrongGuesses := []
      showGiveUpConfirm := false
      selectedMovieFromAutocomplete := none
      dailyCompleted := false
      stripEffects := [] }
    if isInfiniteTab tab then
      loadInfiniteMovieSyncFn (loadStreakDataFn today (infModeOfTab tab) st1)
    else
      match dTabOf tab with
      | some dt => syncDailyOutcomeFn today dt st1
      | none => st1

/-- `requestTabSwitch(tab)`: prompt for confirmation when the active tab
is an infinite variant, otherwise switch immediately. -/
def requestTabSwitchFn (today : String) (tab : Tab) (st : GameState) : GameState :=
  if st.activeTab = tab then st
  else if isInfiniteTab st.activeTab then
    { st with pendingTab := some tab, showLeaveConfirm := true }
  else switchTabFn today tab false st

/-- `confirmLeaveTab()`: forfeit the in-progress infinite streak (reset
and persist), then apply the pending media switch or the pending tab
switch. -/
def confirmLeaveTabFn (today : String) (st : GameState) : GameState :=
  let st1 :=
    if isInfiniteTab st.activeTab then
      saveStreakDataFn today (infModeOfTab st.activeTab) { st with currentStreak := 0 }
    else st
  match st1.pendingMediaMode with
  | some pendingMode =>
    let st2 := { st1 with
      mediaMode := pendingMode
      store := st1.store.setItem "mediaMode" (mediaStr pendingMode)
      pendingMediaMode := none
      showLeaveConfirm := false }
    switchTabFn today st2.activeTab true st2
  | none =>
    match st1.pendingTab with
    | none => st1
    | some target =>
      switchTabFn today target false
        { st1 with showLeaveConfirm := false, pendingTab := none }

/-- `cancelLeaveTab()`. -/
def cancelLeaveTabFn (st : GameState) : GameState :=
  { st with showLeaveConfirm := false, pendingTab := none, pendingMediaMode := none }

/-- `setMediaMode(mode)`: prompt when an infinite tab is active, otherwise
persist the preference and reload the current tab. -/
def setMediaModeFn (today : String) (m : Media) (st : GameState) : GameState :=
  if st.mediaMode = m then st
  else if isInfiniteTab st.activeTab then
    { st with pendingMediaMode := some m, showLeaveConfirm := true }
  else
    let st1 := { st with mediaMode := m, store := st.store.setItem "mediaMode" (mediaStr m) }
    switchTabFn today st1.activeTab true st1

/-- `giveUp()`. -/
def giveUpFn (st : GameState) : GameState := { st with showGiveUpConfirm := true }

/-- `cancelGiveUp()`. -/
def cancelGiveUpFn (st : GameState) : GameState := { st with showGiveUpConfirm := false }

/-- `confirmGiveUp()`: force the loss transition (no status guard), mark
the item seen, and update the streak or the daily loss ledger. -/
def confirmGiveUpFn (today : String) (now : Int) (st : GameState) : GameState :=
  let st1 := markCurrentMovieSeenFn now { st with gameStatus := .lost, showGiveUpConfirm := false }
  if isInfiniteTab st1.activeTab then
    saveStreakDataFn today (infModeOfTab st1.activeTab) { st1 with currentStreak := 0 }
  else
    match dTabOf st1.activeTab with
    | some dt => markDailyLossFn today dt st1
    | none => st1

/-- `onInput(term)`. -/
def inputFn (term : String) (st : GameState) : GameState :=
  { st with userGuess := term, selectedMovieFromAutocomplete := none }

/-- `selectSuggestion(movie)`. -/
def selectSuggestionFn (m : MovieT) (st : GameState) : GameState :=
  let year := yearOf m.release_date
  { st with
    userGuess := if year ≠ "" then m.title ++ " (" ++ year ++ ")" else m.title
    selectedMovieFromAutocomplete := some m }

/-- The `next` callback of the daily fetch inside `switchTab`. -/
def dailyLoadedFn (rands : Nat → ℚ) (m : MovieT) (st : GameState) : GameState :=
  let st1 := { st with movie := some m }
  if st1.dailyCompleted then { st1 with gameStatus := .won }
  else if st1.gameStatus = Status.lost then { st1 with showGiveUpConfirm := false }
  else
    let st2 := { st1 with gameStatus := Status.playing }
    if st2.activeTab = Tab.hard then generateStripEffectsOn rands st2 else st2

/-- The `next` callback of the initial daily fetch in `loadForCurrentTab`
(identical, plus clearing the wrong guesses and the give-up prompt). -/
def dailyLoadedInitFn (rands : Nat → ℚ) (m : MovieT) (st : GameState) : GameState :=
  let st1 := dailyLoadedFn rands m st
  { st1 with wrongGuesses := [], showGiveUpConfirm := false }

/-- The `next` callback of the infinite fetch inside `loadInfiniteMovie`. -/
def infLoadedFn (rands : Nat → ℚ) (m : MovieT) (st : GameState) : GameState :=
  let st1 := { st with movie := some m, gameStatus := Status.playing }
  if st1.activeTab = Tab.infiniteHard then generateStripEffectsOn rands st1 else st1

/-- The `error` callback of the infinite fetch: immediate loss. -/
def infFailedFn (st : GameState) : GameState := { st with gameStatus := .lost }

/-- The session events: each user action of the engine's upward surface,
plus the asynchronous fetch completions (which carry the fetched item and
the `Math.random()` draws the resulting effect generation consumes). -/
inductive Ev where
  | requestTab (t : Tab)
  | confirmLeave
  | cancelLeave
  | setMedia (m : Media)
  | input (term : String)
  | selectSug (m : MovieT)
  | submit (now : Int) (rands : Nat → ℚ)
  | giveUpReq
  | confirmGive (now : Int)
  | cancelGive
  | nextInf
  | dailyLoaded (m : MovieT) (rands : Nat → ℚ)
  | dailyLoadedInit (m : MovieT) (rands : Nat → ℚ)
  | infLoaded (m : MovieT) (rands : Nat → ℚ)
  | infFailed

/-- One transition of the session state machine. -/
def step (today : String) (st : GameState) : Ev → GameState
  | .requestTab t => requestTabSwitchFn today t st
  | .confirmLeave => confirmLeaveTabFn today st
  | .cancelLeave => cancelLeaveTabFn st
  | .setMedia m => setMediaModeFn today m st
  | .input term => inputFn term st
  | .selectSug m => selectSuggestionFn m st
  | .submit now rands => validateGuessFn today now rands st
  | .giveUpReq => giveUpFn st
  | .confirmGive now => confirmGiveUpFn today now st
  | .cancelGive => cancelGiveUpFn st
  | .nextInf => loadInfiniteMovieSyncFn st
  | .dailyLoaded m rands => dailyLoadedFn rands m st
  | .dailyLoadedInit m rands => dailyLoadedInitFn rands m st
  | .infLoaded m rands => infLoadedFn rands m st
  | .infFailed => infFailedFn st

/-- The state `ngOnInit` + `initializeWithToken` produce from a stored
profile (token present): media kind and settings read from storage,
default tab `daily`, streaks loaded for `infinite`, daily outcome synced;
the initial daily fetch completes via `Ev.dailyLoadedInit`. -/
def initState (today : String) (s0 : Store) : GameState :=
  let media := if s0.getItem "mediaMode" = some "tv" then Media.tv else Media.movie
  let base : GameState := {
    activeTab := .daily
    mediaMode := media
    movie := none
    currentStepIndex := 0
    userGuess := ""
    gameStatus := .loading
    wrongGuesses := []
    showGiveUpConfirm := false
    showLeaveConfirm := false
    pendingTab := none
    pendingMediaMode := none
    selectedMovieFromAutocomplete := none
    dailyCompleted := false
    dailyCompletedDate := ""
    currentStreak := 0
    todayBestStreak := 0
    allTimeBestStreak := 0
    stripEffects := []
    infiniteMemoryEnabled := s0.getItem "infiniteMemoryEnabled" ≠ some "false"
    seenMovies := []
    seenTv := []
    store := s0 }
  syncDailyOutcomeFn today .daily (loadStreakDataFn today .infinite base)

/-- The session states reachable from a store within one calendar day
(`today` is fixed for the session, as `getTodayKey` is in the source). -/
inductive Reachable (today : String) (s0 : Store) : GameState → Prop where
  | init : Reachable today s0 (initState today s0)
  | step {st : GameState} (e : Ev) :
      Reachable today s0 st → Reachable today s0 (step today st e)

/-! ## Invariants -/

/-- The step-index bound: the current step index stays strictly below the
length of the progression schedule, so `progressionSteps[currentStepIndex]`
is always defined. -/
def IdxInv (st : GameState) : Prop :=
  st.currentStepIndex < progressionSteps.length

/-- Per-key-family consistency of the persisted streak triples: for
every mode and media kind the stored current streak is nonnegative and at
most the stored today-best for the session's day, and the stored all-time
best is nonnegative. Holds for an empty store; broken exactly by carrying
a saved current streak into a later day. -/
def StreakStoreInv (today : String) (s : Store) : Prop :=
  ∀ (mode : InfMode) (media : Media),
    0 ≤ readIntKey s (getStreakStorageKeys mode media).currentKey ∧
    readIntKey s (getStreakStorageKeys mode media).currentKey ≤
      readIntKey s ((getStreakStorageKeys mode media).todayKey ++ today) ∧
    0 ≤ readIntKey s (getStreakStorageKeys mode media).allTimeKey

/-- The streak invariant on session states: the live counters are
consistent (`0 ≤ current ≤ todayBest`, `0 ≤ allTimeBest`) and so is every
persisted streak triple. -/
def StreakInv (today : String) (st : GameState) : Prop :=
  0 ≤ st.currentStreak ∧ st.currentStreak ≤ st.todayBestStreak ∧
  0 ≤ st.allTimeBestStreak ∧ StreakStoreInv today st.store

/-! ## A concrete session (used by the counterexamples and witnesses) -/

/-- A constant stream of `Math.random()` draws (any values do). -/
def rsZero : Nat → ℚ := fun _ => 0

/-- The target item of the spec's evaluator test vector. -/
def inceptionMovie : MovieT :=
  ⟨27205, "Inception", "/inception.jpg", "2010-07-14", some "Inception"⟩

/-- Day key of the demo session. -/
def demoDay : String := "20250101"

/-- Demo session: fresh profile, switch to the infinite tab, load an item
(the session is now `playing` with a zero streak). -/
def demoPlayingState : GameState :=
  step demoDay
    (step demoDay (initState demoDay Store.emptyStore) (.requestTab .infinite))
    (.infLoaded inceptionMovie rsZero)

/-- Demo session, continued: type the loaded item's title and submit it
(a win — the streak becomes 1 and is persisted). -/
def demoWonState : GameState :=
  step demoDay (step demoDay demoPlayingState (.input "inception")) (.submit 0 rsZero)


/-- The store persisted by the demo session (current streak `1`,
today-best `1` under day `20250101`, all-time `1`). -/
def demoStore : Store := demoWonState.store

/-- Demo session, continued differently: after the win, request the next
infinite item and have its fetch FAIL — the error callback of
`loadInfiniteMovie` sets status `lost` without touching any streak
counter, so the state is lost with a current streak of 1. -/
def demoFailedState : GameState :=
  step demoDay (step demoDay demoWonState .nextInf) .infFailed

/-- A fresh session started from the demo store on the NEXT day: the
persisted current streak (1) is re-read, but the today-best key of
`20250102` is absent, so the loaded today-best is 0. -/
def demoNextDayState : GameState := initState "20250102" demoStore

/-! ## Winning rounds in infinite mode -/

/-- One full winning round in infinite mode: type a guess, submit it,
request the next item, and receive it (the payloads are the typed text,
the wall-clock instant, the fetched item and the two random streams). -/
structure WinRound where
  raw : String
  next : MovieT
  now : Int
  rands1 : Nat → ℚ
  rands2 : Nat → ℚ

/-- Apply one winning round's four events. -/
def applyWinRound (today : String) (r : WinRound) (st : GameState) : GameState :=
  step today
    (step today
      (step today (step today st (.input r.raw)) (.submit r.now r.rands1))
      .nextInf)
    (.infLoaded r.next r.rands2)

/-- Apply a list of winning rounds in order. -/
def applyWinRounds (today : String) (st : GameState) : List WinRound → GameState
  | [] => st
  | r :: rest => applyWinRounds today (applyWinRound today r st) rest

/-- Every round's typed guess is non-blank (not the skip sentinel) and is
classified correct (free-text path) against the item on screen when it is
submitted. -/
def AllCorrect (today : String) (st : GameState) : List WinRound → Prop
  | [] => True
  | r :: rest =>
    (jsTrim r.raw.toList).isEmpty = false ∧
    evaluateGuess r.raw none st.movie = true ∧
    AllCorrect today (applyWinRound today r st) rest

/-- One winning round of the demo session. -/
def demoRound : WinRound := ⟨"inception", inceptionMovie, 0, rsZero, rsZero⟩

/-! ## Lemmas: the normalizer's output alphabet and idempotence -/

theorem mem_normalizeList_isLowerAlnum {c : Char} {l : List Char} {d : Bool}
    (h : c ∈ normalizeList l d) : isLowerAlnum c = true := by
  unfold normalizeList at h
  exact (List.mem_filter.mp h).2

theorem jsToLower_fixes {c : Char} (h : isLowerAlnum c = true) : jsToLower c = c := by
  unfold isLowerAlnum at h
  simp only [Bool.or_eq_true, Bool.and_eq_true, decide_eq_true_eq] at h
  unfold jsToLower
  rw [if_neg (by omega), if_neg (by omega)]

theorem nfdChar_fixes {c : Char} (h : isLowerAlnum c = true) : nfdChar c = [c] := by
  unfold isLowerAlnum at h
  simp only [Bool.or_eq_true, Bool.and_eq_true, decide_eq_true_eq] at h
  unfold nfdChar
  rw [if_pos (by omega)]

theorem isCombining_of_lowerAlnum {c : Char} (h : isLowerAlnum c = true) :
    isCombining c = false := by
  unfold isLowerAlnum at h
  simp only [Bool.or_eq_true, Bool.and_eq_true, decide_eq_true_eq] at h
  unfold isCombining
  simp only [Bool.and_eq_false_iff, decide_eq_false_iff_not]
  omega

theorem jsIsWhitespace_of_lowerAlnum {c : Char} (h : isLowerAlnum c = true) :
    jsIsWhitespace c = false := by
  unfold isLowerAlnum at h
  simp only [Bool.or_eq_true, Bool.and_eq_true, decide_eq_true_eq] at h
  unfold jsIsWhitespace
  simp only [Bool.or_eq_false_iff, decide_eq_false_iff_not]
  omega

theorem dropWhile_eq_self_of_all {p : Char → Bool} {l : List Char}
    (h : ∀ c ∈ l, p c = false) : l.dropWhile p = l := by
  cases l with
  | nil => rfl
  | cons a t =>
    rw [List.dropWhile_cons, h a (List.mem_cons_self a t)]
    simp

theorem jsTrim_eq_self {l : List Char}
    (h : ∀ c ∈ l, jsIsWhitespace c = false) : jsTrim l = l := by
  unfold jsTrim
  rw [dropWhile_eq_self_of_all h,
      dropWhile_eq_self_of_all (fun c hc => h c (List.mem_reverse.mp hc)),
      List.reverse_reverse]

theorem map_jsToLower_eq_self {l : List Char}
    (h : ∀ c ∈ l, isLowerAlnum c = true) : l.map jsToLower = l := by
  rw [List.map_congr_left (fun a ha => jsToLower_fixes (h a ha))]
  simp

theorem dropElision_eq_self {l : List Char}
    (h : ∀ c ∈ l, isLowerAlnum c = true) : dropElision l = l := by
  cases l with
  | nil => rfl
  | cons c0 t =>
    cases t with
    | nil => rfl
    | cons c1 r =>
      have h1 := h c1 (List.mem_cons_of_mem c0 (List.mem_cons_self c1 r))
      unfold isLowerAlnum at h1
      simp only [Bool.or_eq_true, Bool.and_eq_true, decide_eq_true_eq] at h1
      show (if c0.toNat = 108 ∧ (c1.toNat = 39 ∨ c1.toNat = 96) then r
        else c0 :: c1 :: r) = c0 :: c1 :: r
      rw [if_neg (by omega)]

theorem articleMatches_eq_false {l : List Char} (w : List Char)
    (h : ∀ c ∈ l, isLowerAlnum c = true) : articleMatches l w = false := by
  unfold articleMatches
  cases hd : l.drop w.length with
  | nil => simp [hd]
  | cons c t =>
    have hc : c ∈ l := List.mem_of_mem_drop (by rw [hd]; exact List.mem_cons_self c t)
    have : jsIsWhitespace c = false :=
      jsIsWhitespace_of_lowerAlnum (h c hc)
    simp [hd, this]

theorem stripLeadingArticles_fixes {l : List Char}
    (h : ∀ c ∈ l, isLowerAlnum c = true) : stripLeadingArticles l = l := by
  have hws : ∀ c ∈ l, jsIsWhitespace c = false :=
    fun c hc => jsIsWhitespace_of_lowerAlnum (h c hc)
  simp only [stripLeadingArticles]
  rw [jsTrim_eq_self hws, map_jsToLower_eq_self h, dropElision_eq_self h,
      List.find?_eq_none.mpr (fun w _ => by simp [articleMatches_eq_false w h])]
  exact jsTrim_eq_self hws

theorem flatMap_nfdChar_eq_self {l : List Char}
    (h : ∀ c ∈ l, isLowerAlnum c = true) : l.flatMap nfdChar = l := by
  induction l with
  | nil => rfl
  | cons a t ih =>
    rw [List.flatMap_cons, nfdChar_fixes (h a (List.mem_cons_self a t)),
        ih (fun c hc => h c (List.mem_cons_of_mem a hc))]
    rfl

theorem normalizeList_fixes {l : List Char} (d : Bool)
    (h : ∀ c ∈ l, isLowerAlnum c = true) : normalizeList l d = l := by
  have hbase : (if d then stripLeadingArticles l else l) = l := by
    cases d with
    | false => rfl
    | true => simpa using stripLeadingArticles_fixes h
  simp only [normalizeList]
  rw [hbase, map_jsToLower_eq_self h, flatMap_nfdChar_eq_self h]
  have h1 : l.filter (fun c => !isCombining c) = l :=
    List.filter_eq_self.mpr (fun c hc => by simp [isCombining_of_lowerAlnum (h c hc)])
  rw [h1, List.filter_eq_self.mpr h]

/-! ## Lemmas: `parseInt ∘ toString` round-trip on the persisted counters -/

theorem digitChar_toNat_of_lt : ∀ d < 10, (Nat.digitChar d).toNat = d + 48 := by decide

theorem digitChar_isDigit : ∀ d < 10, isDigit (Nat.digitChar d) = true := by decide

theorem foldl_toDigitsCore :
    ∀ (fuel n : Nat) (ds : List Char) (a : Nat), n < 10 ^ fuel →
      ∃ k, List.foldl (fun a c => a * 10 + (c.toNat - 48)) a (Nat.toDigitsCore 10 fuel n ds)
        = List.foldl (fun a c => a * 10 + (c.toNat - 48)) (a * 10 ^ k + n) ds := by
  intro fuel
  induction fuel with
  | zero =>
    intro n ds a h
    have hn : n = 0 := by simpa using h
    exact ⟨0, by simp [hn, Nat.toDigitsCore]⟩
  | succ fuel ih =>
    intro n ds a h
    have hmod : n % 10 < 10 := Nat.mod_lt _ (by norm_num)
    have hdd := digitChar_toNat_of_lt (n % 10) hmod
    by_cases h0 : n / 10 = 0
    · refine ⟨1, ?_⟩
      rw [show Nat.toDigitsCore 10 (fuel + 1) n ds = Nat.digitChar (n % 10) :: ds by
            simp [Nat.toDigitsCore, h0]]
      simp only [List.foldl_cons, hdd, pow_one]
      have harith : a * 10 + (n % 10 + 48 - 48) = a * 10 + n := by omega
      rw [harith]
    · have hn : n / 10 < 10 ^ fuel := by
        rw [Nat.div_lt_iff_lt_mul (by norm_num)]
        calc n < 10 ^ (fuel + 1) := h
        _ = 10 ^ fuel * 10 := by ring
      obtain ⟨k, hk⟩ := ih (n / 10) (List.cons (Nat.digitChar (n % 10)) ds) a hn
      refine ⟨k + 1, ?_⟩
      rw [show Nat.toDigitsCore 10 (fuel + 1) n ds
            = Nat.toDigitsCore 10 fuel (n / 10) (Nat.digitChar (n % 10) :: ds) by
            simp [Nat.toDigitsCore, h0], hk]
      simp only [List.foldl_cons, hdd]
      congr 1
      have := Nat.div_add_mod n 10
      ring_nf
      omega

theorem toDigitsCore_all_digits :
    ∀ (fuel n : Nat) (ds : List Char), (∀ c ∈ ds, isDigit c = true) →
      ∀ c ∈ Nat.toDigitsCore 10 fuel n ds, isDigit c = true := by
  intro fuel
  induction fuel with
  | zero => intro n ds h; simpa [Nat.toDigitsCore] using h
  | succ fuel ih =>
    intro n ds h
    have hmod : n % 10 < 10 := Nat.mod_lt _ (by norm_num)
    have hcons : ∀ c ∈ Nat.digitChar (n % 10) :: ds, isDigit c = true := by
      intro c hc
      rcases List.mem_cons.mp hc with hc | hc
      · rw [hc]; exact digitChar_isDigit _ hmod
      · exact h c hc
    by_cases h0 : n / 10 = 0
    · simpa [Nat.toDigitsCore, h0] using hcons
    · intro c hc
      rw [show Nat.toDigitsCore 10 (fuel + 1) n ds
            = Nat.toDigitsCore 10 fuel (n / 10) (Nat.digitChar (n % 10) :: ds) by
            simp [Nat.toDigitsCore, h0]] at hc
      exact ih (n / 10) _ hcons c hc

theorem toDigitsCore_ne_nil :
    ∀ (fuel n : Nat) (ds : List Char), ds ≠ [] → Nat.toDigitsCore 10 fuel n ds ≠ [] := by
  intro fuel
  induction fuel with
  | zero => intro n ds h; simpa [Nat.toDigitsCore] using h
  | succ fuel ih =>
    intro n ds h
    by_cases h0 : n / 10 = 0
    · simp [Nat.toDigitsCore, h0]
    · rw [show Nat.toDigitsCore 10 (fuel + 1) n ds
            = Nat.toDigitsCore 10 fuel (n / 10) (Nat.digitChar (n % 10) :: ds) by
            simp [Nat.toDigitsCore, h0]]
      exact ih (n / 10) _ (by simp)

theorem natOfDigits_toDigits (n : Nat) : natOfDigits (Nat.toDigits 10 n) = n := by
  have hlt : n < 10 ^ (n + 1) :=
    lt_of_lt_of_le (Nat.lt_pow_self (by norm_num) n)
      (Nat.pow_le_pow_right (by norm_num) (Nat.le_succ n))
  obtain ⟨k, hk⟩ := foldl_toDigitsCore (n + 1) n [] 0 hlt
  unfold natOfDigits Nat.toDigits
  simpa using hk

theorem isDigit_not_ws {c : Char} (h : isDigit c = true) : jsIsWhitespace c = false := by
  unfold isDigit at h
  simp only [Bool.and_eq_true, decide_eq_true_eq] at h
  unfold jsIsWhitespace
  simp only [Bool.or_eq_false_iff, decide_eq_false_iff_not]
  omega

theorem parseIntD_of_digits (l : List Char) (hne : l ≠ [])
    (h : ∀ c ∈ l, isDigit c = true) :
    parseIntD (String.mk l) = (natOfDigits l : Int) := by
  unfold parseIntD
  have htl : (String.mk l).toList = l := rfl
  rw [htl, jsTrim_eq_self (fun c hc => isDigit_not_ws (h c hc))]
  cases l with
  | nil => exact absurd rfl hne
  | cons c rest =>
    have hc := h c (List.mem_cons_self c rest)
    unfold isDigit at hc
    simp only [Bool.and_eq_true, decide_eq_true_eq] at hc
    dsimp only
    rw [if_neg (by omega), if_neg (by omega)]
    have htw : (c :: rest).takeWhile isDigit = c :: rest :=
      List.takeWhile_eq_self_iff.mpr h
    simp only [htw]
    rw [if_neg (by simp)]

theorem toDigits_ne_nil (n : Nat) : Nat.toDigits 10 n ≠ [] := by
  unfold Nat.toDigits
  by_cases h0 : n / 10 = 0
  · simp [Nat.toDigitsCore, h0]
  · rw [show Nat.toDigitsCore 10 (n + 1) n []
          = Nat.toDigitsCore 10 n (n / 10) (Nat.digitChar (n % 10) :: []) by
          simp [Nat.toDigitsCore, h0]]
    exact toDigitsCore_ne_nil n (n / 10) _ (by simp)

theorem parseIntD_natRepr (n : Nat) : parseIntD (Nat.repr n) = (n : Int) := by
  have hrepr : Nat.repr n = String.mk (Nat.toDigits 10 n) := rfl
  rw [hrepr,
      parseIntD_of_digits _ (toDigits_ne_nil n)
        (toDigitsCore_all_digits (n + 1) n [] (by simp)),
      natOfDigits_toDigits]

theorem parseIntD_toString_int {i : Int} (h : 0 ≤ i) : parseIntD (toString i) = i := by
  obtain ⟨m, rfl⟩ := Int.eq_ofNat_of_zero_le h
  have h2 : toString ((m : ℤ)) = Nat.repr m := rfl
  rw [h2, parseIntD_natRepr]

/-! ## Lemmas: store reads and key distinctness -/

theorem setItem_get_eq (s : Store) (k v : String) : (s.setItem k v).getItem k = some v := by
  simp [Store.setItem, Store.getItem]

theorem setItem_get_ne (s : Store) {k q : String} (v : String) (h : q ≠ k) :
    (s.setItem k v).getItem q = s.getItem q := by
  simp [Store.setItem, Store.getItem, h]

theorem removeItem_get_eq (s : Store) (k : String) : (s.removeItem k).getItem k = none := by
  simp [Store.removeItem, Store.getItem]

theorem removeItem_get_ne (s : Store) {k q : String} (h : q ≠ k) :
    (s.removeItem k).getItem q = s.getItem q := by
  simp [Store.removeItem, Store.getItem, h]

theorem readIntKey_set_ne (s : Store) {k q : String} (v : String) (h : q ≠ k) :
    readIntKey (s.setItem k v) q = readIntKey s q := by
  unfold readIntKey
  rw [setItem_get_ne s v h]

theorem readIntKey_set_eq (s : Store) (k : String) {i : Int} (h : 0 ≤ i) :
    readIntKey (s.setItem k (toString i)) k = i := by
  unfold readIntKey
  rw [setItem_get_eq, Option.getD_some, parseIntD_toString_int h]

/-- Two strings differing within their first `m` characters are distinct. -/
theorem string_ne_of_take_ne {s t : String} (m : Nat)
    (h : s.toList.take m ≠ t.toList.take m) : s ≠ t := by
  intro he; exact h (by rw [he])

theorem toList_append (a b : String) : (a ++ b).toList = a.toList ++ b.toList := rfl

/-- A fixed key differs from `p ++ t` whenever it differs from `p` within
the first `m ≤ |p|` characters. -/
theorem ne_append_of_take_ne {c p : String} (t : String) (m : Nat)
    (hm : m ≤ p.toList.length) (h : c.toList.take m ≠ p.toList.take m) : c ≠ p ++ t := by
  apply string_ne_of_take_ne m
  rw [toList_append, List.take_append_of_le_length hm]
  exact h

/-- Appends of the same suffix to prefixes of different lengths differ. -/
theorem append_ne_append_of_length_ne {p q : String} (t : String)
    (h : p.toList.length ≠ q.toList.length) : p ++ t ≠ q ++ t := by
  intro he
  apply h
  have := congrArg (fun s => s.toList.length) he
  simpa [toList_append] using this

/-- The four streak key families are pairwise disjoint (also from all
daily-outcome keys and from the media preference key), for any appended
day keys: saving one family's triple touches no other family's keys. -/
theorem streak_keys_cases (mode mode' : InfMode) (media media' : Media) (t : String) :
    (getStreakStorageKeys mode media).currentKey ≠
      (getStreakStorageKeys mode' media').todayKey ++ t ∧
    (getStreakStorageKeys mode media).allTimeKey ≠
      (getStreakStorageKeys mode' media').todayKey ++ t := by
  cases mode <;> cases mode' <;> cases media <;> cases media' <;>
    exact ⟨ne_append_of_take_ne t 13 (by decide) (by decide),
           ne_append_of_take_ne t 13 (by decide) (by decide)⟩

theorem readIntKey_set3_ne (s : Store) {q k1 k2 k3 : String} (v1 v2 v3 : String)
    (h1 : q ≠ k1) (h2 : q ≠ k2) (h3 : q ≠ k3) :
    readIntKey (((s.setItem k1 v1).setItem k2 v2).setItem k3 v3) q = readIntKey s q := by
  rw [readIntKey_set_ne _ _ h3, readIntKey_set_ne _ _ h2, readIntKey_set_ne _ _ h1]

theorem readIntKey_set3_first (s : Store) {k1 k2 k3 : String} {c : Int} (v2 v3 : String)
    (h2 : k1 ≠ k2) (h3 : k1 ≠ k3) (hc : 0 ≤ c) :
    readIntKey (((s.setItem k1 (toString c)).setItem k2 v2).setItem k3 v3) k1 = c := by
  rw [readIntKey_set_ne _ _ h3, readIntKey_set_ne _ _ h2, readIntKey_set_eq _ _ hc]

theorem readIntKey_set3_second (s : Store) {k1 k2 k3 : String} {c : Int} (v1 v3 : String)
    (h3 : k2 ≠ k3) (hc : 0 ≤ c) :
    readIntKey (((s.setItem k1 v1).setItem k2 (toString c)).setItem k3 v3) k2 = c := by
  rw [readIntKey_set_ne _ _ h3, readIntKey_set_eq _ _ hc]

theorem readIntKey_set3_third (s : Store) {k1 k2 k3 : String} {c : Int} (v1 v2 : String)
    (hc : 0 ≤ c) :
    readIntKey (((s.setItem k1 v1).setItem k2 v2).setItem k3 (toString c)) k3 = c := by
  rw [readIntKey_set_eq _ _ hc]

theorem curKey_ne_allKey (mode : InfMode) (media : Media) :
    (getStreakStorageKeys mode media).currentKey ≠
      (getStreakStorageKeys mode media).allTimeKey := by
  cases mode <;> cases media <;> decide

/-- `saveStreakData` writes a consistent triple and leaves every other
streak family untouched. -/
theorem streakStoreInv_save (today : String) {s : Store}
    (inv : StreakStoreInv today s) (mode : InfMode) (media : Media)
    {c tb ab : Int} (hc : 0 ≤ c) (hctb : c ≤ tb) (hab : 0 ≤ ab) :
    StreakStoreInv today
      ((((s.setItem (getStreakStorageKeys mode media).currentKey (toString c)).setItem
          ((getStreakStorageKeys mode media).todayKey ++ today) (toString tb)).setItem
          (getStreakStorageKeys mode media).allTimeKey (toString ab))) := by
  intro mode' media'
  obtain ⟨ic, itb, iab⟩ := inv mode' media'
  by_cases heq : mode' = mode ∧ media' = media
  · obtain ⟨rfl, rfl⟩ := heq
    refine ⟨?_, ?_, ?_⟩
    · rw [readIntKey_set3_first _ _ _ (streak_keys_cases _ _ _ _ today).1
          (curKey_ne_allKey _ _) hc]
      exact hc
    · rw [readIntKey_set3_first _ _ _ (streak_keys_cases _ _ _ _ today).1
          (curKey_ne_allKey _ _) hc,
          readIntKey_set3_second _ _ _ ((streak_keys_cases _ _ _ _ today).2.symm)
          (le_trans hc hctb)]
      exact hctb
    · rw [readIntKey_set3_third _ _ _ hab]
      exact hab
  · have hne : ¬(mode' = mode ∧ media' = media) := heq
    refine ⟨?_, ?_, ?_⟩
    · rw [readIntKey_set3_ne]
      · exact ic
      all_goals
        cases mode <;> cases media <;> cases mode' <;> cases media' <;>
          first
            | decide
            | exact ne_append_of_take_ne _ 13 (by decide) (by decide)
            | exact (ne_append_of_take_ne _ 13 (by decide) (by decide)).symm
            | exact append_ne_append_of_length_ne _ (by decide)
            | simp at hne
    · rw [readIntKey_set3_ne, readIntKey_set3_ne]
      · exact itb
      all_goals
        cases mode <;> cases media <;> cases mode' <;> cases media' <;>
          first
            | decide
            | exact ne_append_of_take_ne _ 13 (by decide) (by decide)
            | exact (ne_append_of_take_ne _ 13 (by decide) (by decide)).symm
            | exact append_ne_append_of_length_ne _ (by decide)
            | simp at hne
    · rw [readIntKey_set3_ne]
      · exact iab
      all_goals
        cases mode <;> cases media <;> cases mode' <;> cases media' <;>
          first
            | decide
            | exact ne_append_of_take_ne _ 13 (by decide) (by decide)
            | exact (ne_append_of_take_ne _ 13 (by decide) (by decide)).symm
            | exact append_ne_append_of_length_ne _ (by decide)
            | simp at hne

theorem readIntKey_remove_ne (s : Store) {k q : String} (h : q ≠ k) :
    readIntKey (s.removeItem k) q = readIntKey s q := by
  unfold readIntKey
  rw [removeItem_get_ne s h]

/-- Two appends with distinct prefixes (within the first `m` characters
of both) are distinct, whatever the suffixes. -/
theorem append_ne_append_of_take_ne {p q : String} (t u : String) (m : Nat)
    (hp : m ≤ p.toList.length) (hq : m ≤ q.toList.length)
    (h : p.toList.take m ≠ q.toList.take m) : p ++ t ≠ q ++ u := by
  intro he
  apply h
  have h2 := congrArg (fun s => List.take m s.toList) he
  simp only [toList_append] at h2
  rw [List.take_append_of_le_length hp, List.take_append_of_le_length hq] at h2
  exact h2

/-- A write to a key distinct from every streak key preserves the streak
store invariant. -/
theorem streakStoreInv_setItem_other (today : String) {s : Store}
    (inv : StreakStoreInv today s) {k : String} (v : String)
    (hk : ∀ mode media,
      (getStreakStorageKeys mode media).currentKey ≠ k ∧
      (getStreakStorageKeys mode media).todayKey ++ today ≠ k ∧
      (getStreakStorageKeys mode media).allTimeKey ≠ k) :
    StreakStoreInv today (s.setItem k v) := by
  intro mode media
  obtain ⟨h1, h2, h3⟩ := hk mode media
  obtain ⟨ic, itb, iab⟩ := inv mode media
  rw [readIntKey_set_ne _ _ h1, readIntKey_set_ne _ _ h2, readIntKey_set_ne _ _ h3]
  exact ⟨ic, itb, iab⟩

/-- A removal of a key distinct from every streak key preserves the streak
store invariant. -/
theorem streakStoreInv_removeItem_other (today : String) {s : Store}
    (inv : StreakStoreInv today s) {k : String}
    (hk : ∀ mode media,
      (getStreakStorageKeys mode media).currentKey ≠ k ∧
      (getStreakStorageKeys mode media).todayKey ++ today ≠ k ∧
      (getStreakStorageKeys mode media).allTimeKey ≠ k) :
    StreakStoreInv today (s.removeItem k) := by
  intro mode media
  obtain ⟨h1, h2, h3⟩ := hk mode media
  obtain ⟨ic, itb, iab⟩ := inv mode media
  rw [readIntKey_remove_ne _ h1, readIntKey_remove_ne _ h2, readIntKey_remove_ne _ h3]
  exact ⟨ic, itb, iab⟩

/-- Daily-outcome keys (which start with `daily...`) never collide with
streak keys (which start with `infinite...`). -/
theorem streak_key_ne_dailyKey (dt : DTab) (w : Bool) (media0 : Media) (t today : String) :
    ∀ mode media,
      (getStreakStorageKeys mode media).currentKey ≠ getDailyStoragePrefix dt w media0 ++ t ∧
      (getStreakStorageKeys mode media).todayKey ++ today ≠ getDailyStoragePrefix dt w media0 ++ t ∧
      (getStreakStorageKeys mode media).allTimeKey ≠ getDailyStoragePrefix dt w media0 ++ t := by
  intro mode media
  cases dt <;> cases w <;> cases media0 <;> cases mode <;> cases media <;>
    exact ⟨ne_append_of_take_ne _ 1 (by decide) (by decide),
           append_ne_append_of_take_ne _ _ 1 (by decide) (by decide) (by decide),
           ne_append_of_take_ne _ 1 (by decide) (by decide)⟩

/-- The media preference key `mediaMode` never collides with streak keys. -/
theorem streak_key_ne_mediaMode (today : String) :
    ∀ mode media,
      (getStreakStorageKeys mode media).currentKey ≠ "mediaMode" ∧
      (getStreakStorageKeys mode media).todayKey ++ today ≠ "mediaMode" ∧
      (getStreakStorageKeys mode media).allTimeKey ≠ "mediaMode" := by
  intro mode media
  cases mode <;> cases media <;>
    exact ⟨by decide,
           (ne_append_of_take_ne _ 1 (by decide) (by decide)).symm,
           by decide⟩

theorem streakStoreInv_emptyStore (today : String) : StreakStoreInv today Store.emptyStore := by
  intro mode media
  refine ⟨?_, ?_, ?_⟩ <;>
    simp [readIntKey, Store.emptyStore, Store.getItem] <;> decide

/-! ## StreakInv preservation through every session operation -/

theorem streakInv_loadStreakData (today : String) (mode : InfMode) {st : GameState}
    (inv : StreakStoreInv today st.store) :
    StreakInv today (loadStreakDataFn today mode st) := by
  obtain ⟨ic, itb, iab⟩ := inv mode st.mediaMode
  exact ⟨ic, itb, iab, inv⟩

theorem streakInv_saveStreakData (today : String) (mode : InfMode) {st : GameState}
    (inv : StreakInv today st) :
    StreakInv today (saveStreakDataFn today mode st) := by
  obtain ⟨h1, h2, h3, h4⟩ := inv
  exact ⟨h1, h2, h3, streakStoreInv_save today h4 mode st.mediaMode h1 h2 h3⟩

theorem streakInv_markDailyWin (today : String) (dt : DTab) {st : GameState}
    (inv : StreakInv today st) :
    StreakInv today (markDailyWinFn today dt st) := by
  obtain ⟨h1, h2, h3, h4⟩ := inv
  refine ⟨h1, h2, h3, ?_⟩
  exact streakStoreInv_removeItem_other today
    (streakStoreInv_setItem_other today h4 _
      (streak_key_ne_dailyKey dt true st.mediaMode today today))
    (streak_key_ne_dailyKey dt false st.mediaMode today today)

theorem streakInv_markDailyLoss (today : String) (dt : DTab) {st : GameState}
    (inv : StreakInv today st) :
    StreakInv today (markDailyLossFn today dt st) := by
  obtain ⟨h1, h2, h3, h4⟩ := inv
  refine ⟨h1, h2, h3, ?_⟩
  exact streakStoreInv_removeItem_other today
    (streakStoreInv_setItem_other today h4 _
      (streak_key_ne_dailyKey dt false st.mediaMode today today))
    (streak_key_ne_dailyKey dt true st.mediaMode today today)

theorem streakInv_markSeen (today : String) (now : Int) {st : GameState}
    (inv : StreakInv today st) :
    StreakInv today (markCurrentMovieSeenFn now st) := by
  unfold markCurrentMovieSeenFn addSeenRandomMovieFn
  split
  · exact inv
  · split
    · split
      · exact inv
      · exact inv
    · exact inv

theorem streakInv_syncDaily (today : String) (dt : DTab) {st : GameState}
    (inv : StreakInv today st) :
    StreakInv today (syncDailyOutcomeFn today dt st) := by
  unfold syncDailyOutcomeFn
  dsimp only
  split
  · exact inv
  · split
    · exact inv
    · exact inv

theorem streakInv_switchTab (today : String) (tab : Tab) (force : Bool) {st : GameState}
    (inv : StreakInv today st) :
    StreakInv today (switchTabFn today tab force st) := by
  unfold switchTabFn
  dsimp only
  split
  · exact inv
  · split
    · exact streakInv_loadStreakData today _ inv.2.2.2
    · split
      · exact streakInv_syncDaily today _ inv
      · exact inv

theorem streakInv_requestTab (today : String) (tab : Tab) {st : GameState}
    (inv : StreakInv today st) :
    StreakInv today (requestTabSwitchFn today tab st) := by
  unfold requestTabSwitchFn
  split
  · exact inv
  · split
    · exact inv
    · exact streakInv_switchTab today tab false inv

theorem streakInv_setMedia (today : String) (m : Media) {st : GameState}
    (inv : StreakInv today st) :
    StreakInv today (setMediaModeFn today m st) := by
  unfold setMediaModeFn
  dsimp only
  split
  · exact inv
  · split
    · exact inv
    · apply streakInv_switchTab
      obtain ⟨h1, h2, h3, h4⟩ := inv
      exact ⟨h1, h2, h3,
        streakStoreInv_setItem_other today h4 _ (streak_key_ne_mediaMode today)⟩

theorem streakInv_confirmLeave (today : String) {st : GameState}
    (inv : StreakInv today st) :
    StreakInv today (confirmLeaveTabFn today st) := by
  unfold confirmLeaveTabFn
  dsimp only
  have hst1 : ∀ st1 : GameState, StreakInv today st1 →
      StreakInv today
        (match st1.pendingMediaMode with
         | some pendingMode =>
           switchTabFn today st1.activeTab true
             { st1 with
               mediaMode := pendingMode
               store := st1.store.setItem "mediaMode" (mediaStr pendingMode)
               pendingMediaMode := none
               showLeaveConfirm := false }
         | none =>
           match st1.pendingTab with
           | none => st1
           | some target =>
             switchTabFn today target false
               { st1 with showLeaveConfirm := false, pendingTab := none }) := by
    intro st1 inv1
    split
    · apply streakInv_switchTab
      obtain ⟨h1, h2, h3, h4⟩ := inv1
      exact ⟨h1, h2, h3,
        streakStoreInv_setItem_other today h4 _ (streak_key_ne_mediaMode today)⟩
    · split
      · exact inv1
      · exact streakInv_switchTab today _ false inv1
  by_cases hinf : isInfiniteTab st.activeTab
  · rw [if_pos hinf]
    apply hst1
    apply streakInv_saveStreakData
    obtain ⟨h1, h2, h3, h4⟩ := inv
    exact ⟨le_refl 0, le_trans h1 h2, h3, h4⟩
  · rw [if_neg hinf]
    exact hst1 st inv

theorem streakInv_nextStep (today : String) (now : Int) (rands : Nat → ℚ) {st : GameState}
    (inv : StreakInv today st) :
    StreakInv today (nextStepFn today now rands st) := by
  unfold nextStepFn
  dsimp only
  split
  · split
    · exact inv
    · exact inv
  · have h1 : StreakInv today (markCurrentMovieSeenFn now { st with gameStatus := .lost }) :=
      streakInv_markSeen today now inv
    split
    · apply streakInv_saveStreakData
      exact ⟨le_refl 0, le_trans h1.1 h1.2.1, h1.2.2.1, h1.2.2.2⟩
    · split
      · exact streakInv_markDailyLoss today _ h1
      · exact h1

theorem streakInv_clearGuess (today : String) {st : GameState}
    (inv : StreakInv today st) : StreakInv today (clearGuessInput st) := inv

theorem streakInv_validateWin (today : String) (now : Int) {st : GameState}
    (inv : StreakInv today st) :
    StreakInv today (validateGuessWin today now st) := by
  unfold validateGuessWin
  dsimp only
  have h1 : StreakInv today (markCurrentMovieSeenFn now { st with gameStatus := .won }) :=
    streakInv_markSeen today now inv
  split
  · apply streakInv_saveStreakData
    have hc := h1.1
    have hctb := h1.2.1
    have hab := h1.2.2.1
    set stw := markCurrentMovieSeenFn now { st with gameStatus := .won }
    refine ⟨?_, ?_, ?_, h1.2.2.2⟩
    · show (0 : Int) ≤ stw.currentStreak + 1
      omega
    · show stw.currentStreak + 1 ≤
        (if stw.currentStreak + 1 > stw.todayBestStreak then stw.currentStreak + 1
         else stw.todayBestStreak)
      split <;> omega
    · show (0 : Int) ≤
        (if stw.currentStreak + 1 > stw.allTimeBestStreak then stw.currentStreak + 1
         else stw.allTimeBestStreak)
      split <;> omega
  · split
    · exact streakInv_markDailyWin today _ h1
    · exact h1

theorem streakInv_validateWrong (today : String) (now : Int) (rands : Nat → ℚ)
    {st : GameState} (inv : StreakInv today st) :
    StreakInv today (validateGuessWrong today now rands st) := by
  unfold validateGuessWrong
  exact streakInv_nextStep today now rands inv

theorem streakInv_validateGuess (today : String) (now : Int) (rands : Nat → ℚ)
    {st : GameState} (inv : StreakInv today st) :
    StreakInv today (validateGuessFn today now rands st) := by
  unfold validateGuessFn
  split
  · exact inv
  · split
    · exact streakInv_nextStep today now rands inv
    · split
      · exact streakInv_clearGuess today (streakInv_validateWin today now inv)
      · exact streakInv_clearGuess today (streakInv_validateWrong today now rands inv)

theorem streakInv_confirmGiveUp (today : String) (now : Int) {st : GameState}
    (inv : StreakInv today st) :
    StreakInv today (confirmGiveUpFn today now st) := by
  unfold confirmGiveUpFn
  dsimp only
  have h1 : StreakInv today
      (markCurrentMovieSeenFn now { st with gameStatus := .lost, showGiveUpConfirm := false }) :=
    streakInv_markSeen today now inv
  split
  · apply streakInv_saveStreakData
    exact ⟨le_refl 0, le_trans h1.1 h1.2.1, h1.2.2.1, h1.2.2.2⟩
  · split
    · exact streakInv_markDailyLoss today _ h1
    · exact h1

theorem streakInv_dailyLoaded (today : String) (rands : Nat → ℚ) (m : MovieT)
    {st : GameState} (inv : StreakInv today st) :
    StreakInv today (dailyLoadedFn rands m st) := by
  unfold dailyLoadedFn
  dsimp only
  split
  · exact inv
  · split
    · exact inv
    · split
      · exact inv
      · exact inv

theorem streakInv_dailyLoadedInit (today : String) (rands : Nat → ℚ) (m : MovieT)
    {st : GameState} (inv : StreakInv today st) :
    StreakInv today (dailyLoadedInitFn rands m st) := by
  unfold dailyLoadedInitFn
  exact streakInv_dailyLoaded today rands m inv

theorem streakInv_infLoaded (today : String) (rands : Nat → ℚ) (m : MovieT)
    {st : GameState} (inv : StreakInv today st) :
    StreakInv today (infLoadedFn rands m st) := by
  unfold infLoadedFn
  dsimp only
  split
  · exact inv
  · exact inv

/-- Every event of the session state machine preserves the streak
invariant. -/
theorem streakInv_step (today : String) {st : GameState}
    (inv : StreakInv today st) (e : Ev) :
    StreakInv today (step today st e) := by
  cases e with
  | requestTab t => exact streakInv_requestTab today t inv
  | confirmLeave => exact streakInv_confirmLeave today inv
  | cancelLeave => exact inv
  | setMedia m => exact streakInv_setMedia today m inv
  | input term => exact inv
  | selectSug m => exact inv
  | submit now rands => exact streakInv_validateGuess today now rands inv
  | giveUpReq => exact inv
  | confirmGive now => exact streakInv_confirmGiveUp today now inv
  | cancelGive => exact inv
  | nextInf => exact inv
  | dailyLoaded m rands => exact streakInv_dailyLoaded today rands m inv
  | dailyLoadedInit m rands => exact streakInv_dailyLoadedInit today rands m inv
  | infLoaded m rands => exact streakInv_infLoaded today rands m inv
  | infFailed => exact inv

/-- The initial session state satisfies the streak invariant whenever the
profile it starts from does. -/
theorem streakInv_init (today : String) {s0 : Store} (h : StreakStoreInv today s0) :
    StreakInv today (initState today s0) := by
  unfold initState
  dsimp only
  apply streakInv_syncDaily
  exact streakInv_loadStreakData today .infinite h

/-- Every reachable session state satisfies the streak invariant, given a
consistent starting profile. -/
theorem streakInv_reachable (today : String) {s0 : Store} {st : GameState}
    (h0 : StreakStoreInv today s0) (hr : Reachable today s0 st) :
    StreakInv today st := by
  induction hr with
  | init => exact streakInv_init today h0
  | step e _ ih => exact streakInv_step today ih e

/-! ## IdxInv preservation: the step index never leaves `0..4` -/

theorem idxInv_markSeen (now : Int) {st : GameState} (inv : IdxInv st) :
    IdxInv (markCurrentMovieSeenFn now st) := by
  unfold markCurrentMovieSeenFn addSeenRandomMovieFn
  split
  · exact inv
  · split
    · split
      · exact inv
      · exact inv
    · exact inv

theorem idxInv_syncDaily (today : String) (dt : DTab) {st : GameState} (inv : IdxInv st) :
    IdxInv (syncDailyOutcomeFn today dt st) := by
  unfold syncDailyOutcomeFn
  dsimp only
  split
  · exact inv
  · split
    · exact inv
    · exact inv

theorem idxInv_loadSync (st : GameState) : IdxInv (loadInfiniteMovieSyncFn st) := by
  unfold IdxInv loadInfiniteMovieSyncFn progressionSteps
  simp

theorem idxInv_switchTab (today : String) (tab : Tab) (force : Bool) {st : GameState}
    (inv : IdxInv st) : IdxInv (switchTabFn today tab force st) := by
  unfold switchTabFn
  dsimp only
  split
  · exact inv
  · split
    · exact idxInv_loadSync _
    · split
      · apply idxInv_syncDaily
        unfold IdxInv progressionSteps
        simp
      · unfold IdxInv progressionSteps
        simp

theorem idxInv_nextStep (today : String) (now : Int) (rands : Nat → ℚ) {st : GameState}
    (inv : IdxInv st) : IdxInv (nextStepFn today now rands st) := by
  unfold nextStepFn
  dsimp only
  split
  · rename_i hlt
    have h4 : st.currentStepIndex < 4 := hlt
    have hgoal : st.currentStepIndex + 1 < progressionSteps.length := by
      unfold progressionSteps
      simp
      omega
    split
    · exact hgoal
    · exact hgoal
  · have h1 : IdxInv (markCurrentMovieSeenFn now { st with gameStatus := .lost }) :=
      idxInv_markSeen now inv
    split
    · exact h1
    · split
      · exact h1
      · exact h1

theorem idxInv_validateWin (today : String) (now : Int) {st : GameState}
    (inv : IdxInv st) : IdxInv (validateGuessWin today now st) := by
  unfold validateGuessWin
  dsimp only
  have h1 : IdxInv (markCurrentMovieSeenFn now { st with gameStatus := .won }) :=
    idxInv_markSeen now inv
  split
  · exact h1
  · split
    · exact h1
    · exact h1

theorem idxInv_validateGuess (today : String) (now : Int) (rands : Nat → ℚ)
    {st : GameState} (inv : IdxInv st) :
    IdxInv (validateGuessFn today now rands st) := by
  unfold validateGuessFn
  split
  · exact inv
  · split
    · exact idxInv_nextStep today now rands inv
    · split
      · exact idxInv_validateWin today now inv
      · exact idxInv_nextStep today now rands inv

theorem idxInv_confirmGiveUp (today : String) (now : Int) {st : GameState}
    (inv : IdxInv st) : IdxInv (confirmGiveUpFn today now st) := by
  unfold confirmGiveUpFn
  dsimp only
  have h1 : IdxInv
      (markCurrentMovieSeenFn now { st with gameStatus := .lost, showGiveUpConfirm := false }) :=
    idxInv_markSeen now inv
  split
  · exact h1
  · split
    · exact h1
    · exact h1

theorem idxInv_confirmLeave (today : String) {st : GameState} (inv : IdxInv st) :
    IdxInv (confirmLeaveTabFn today st) := by
  unfold confirmLeaveTabFn
  dsimp only
  have hst1 : ∀ st1 : GameState, IdxInv st1 →
      IdxInv
        (match st1.pendingMediaMode with
         | some pendingMode =>
           switchTabFn today st1.activeTab true
             { st1 with
               mediaMode := pendingMode
               store := st1.store.setItem "mediaMode" (mediaStr pendingMode)
               pendingMediaMode := none
               showLeaveConfirm := false }
         | none =>
           match st1.pendingTab with
           | none => st1
           | some target =>
             switchTabFn today target false
               { st1 with showLeaveConfirm := false, pendingTab := none }) := by
    intro st1 inv1
    split
    · exact idxInv_switchTab today _ true inv1
    · split
      · exact inv1
      · exact idxInv_switchTab today _ false inv1
  by_cases hinf : isInfiniteTab st.activeTab
  · rw [if_pos hinf]
    exact hst1 _ inv
  · rw [if_neg hinf]
    exact hst1 st inv

theorem idxInv_dailyLoaded (rands : Nat → ℚ) (m : MovieT) {st : GameState}
    (inv : IdxInv st) : IdxInv (dailyLoadedFn rands m st) := by
  unfold dailyLoadedFn
  dsimp only
  split
  · exact inv
  · split
    · exact inv
    · split
      · exact inv
      · exact inv

theorem idxInv_infLoaded (rands : Nat → ℚ) (m : MovieT) {st : GameState}
    (inv : IdxInv st) : IdxInv (infLoadedFn rands m st) := by
  unfold infLoadedFn
  dsimp only
  split
  · exact inv
  · exact inv

theorem idxInv_requestTab (today : String) (tab : Tab) {st : GameState}
    (inv : IdxInv st) : IdxInv (requestTabSwitchFn today tab st) := by
  unfold requestTabSwitchFn
  split
  · exact inv
  · split
    · exact inv
    · exact idxInv_switchTab today tab false inv

theorem idxInv_setMedia (today : String) (m : Media) {st : GameState}
    (inv : IdxInv st) : IdxInv (setMediaModeFn today m st) := by
  unfold setMediaModeFn
  dsimp only
  split
  · exact inv
  · split
    · exact inv
    · exact idxInv_switchTab today _ true inv

/-- Every event of the session state machine keeps the step index in
bounds. -/
theorem idxInv_step (today : String) {st : GameState} (inv : IdxInv st) (e : Ev) :
    IdxInv (step today st e) := by
  cases e with
  | requestTab t => exact idxInv_requestTab today t inv
  | confirmLeave => exact idxInv_confirmLeave today inv
  | cancelLeave => exact inv
  | setMedia m => exact idxInv_setMedia today m inv
  | input term => exact inv
  | selectSug m => exact inv
  | submit now rands => exact idxInv_validateGuess today now rands inv
  | giveUpReq => exact inv
  | confirmGive now => exact idxInv_confirmGiveUp today now inv
  | cancelGive => exact inv
  | nextInf => exact idxInv_loadSync st
  | dailyLoaded m rands =>
    exact idxInv_dailyLoaded rands m inv
  | dailyLoadedInit m rands =>
    have h1 : IdxInv (dailyLoadedFn rands m st) := idxInv_dailyLoaded rands m inv
    exact h1
  | infLoaded m rands => exact idxInv_infLoaded rands m inv
  | infFailed => exact inv

/-- Every reachable session state keeps the step index in bounds. -/
theorem idxInv_reachable (today : String) {s0 : Store} {st : GameState}
    (hr : Reachable today s0 st) : IdxInv st := by
  induction hr with
  | init =>
    apply idxInv_syncDaily
    show (0 : Nat) < 5
    decide
  | step e _ ih => exact idxInv_step today ih e

/-! ## The effect of one winning round on the streak counters -/

/-- `markCurrentMovieSeen` only rewrites the seen-recently lists. -/
theorem markSeen_eta (now : Int) (st : GameState) :
    ∃ sm stv, markCurrentMovieSeenFn now st = { st with seenMovies := sm, seenTv := stv } := by
  unfold markCurrentMovieSeenFn addSeenRandomMovieFn
  split
  · exact ⟨st.seenMovies, st.seenTv, rfl⟩
  · split
    · split
      · exact ⟨st.seenMovies, _, rfl⟩
      · exact ⟨_, st.seenTv, rfl⟩
    · exact ⟨st.seenMovies, st.seenTv, rfl⟩

/-- In an infinite tab, the win branch of the submit handler bumps the
current streak by one, without changing tab or item. -/
theorem validateWin_inf_fields (today : String) (now : Int) {st : GameState}
    (hi : isInfiniteTab st.activeTab) :
    (validateGuessWin today now st).currentStreak = st.currentStreak + 1 ∧
    (validateGuessWin today now st).gameStatus = Status.won ∧
    (validateGuessWin today now st).activeTab = st.activeTab ∧
    (validateGuessWin today now st).movie = st.movie := by
  unfold validateGuessWin
  dsimp only
  obtain ⟨sm, stv, heq⟩ := markSeen_eta now { st with gameStatus := .won }
  rw [heq]
  have hcond : isInfiniteTab
      ({ st with gameStatus := Status.won, seenMovies := sm, seenTv := stv } : GameState).activeTab := hi
  rw [if_pos hcond]
  exact ⟨rfl, rfl, rfl, rfl⟩

/-- On a playing infinite-tab state, a non-blank correct submission takes
the win path. -/
theorem submit_correct_eq (today : String) (now : Int) (rands : Nat → ℚ) {st : GameState}
    (hp : st.gameStatus = Status.playing)
    (hraw : (jsTrim st.userGuess.toList).isEmpty = false)
    (hc : evaluateGuess st.userGuess st.selectedMovieFromAutocomplete st.movie = true) :
    validateGuessFn today now rands st = clearGuessInput (validateGuessWin today now st) := by
  unfold validateGuessFn
  rw [if_neg (by simp [hp]), if_neg (by rw [hraw]; simp), if_pos hc]

/-- One winning round in an infinite tab: streak up by one, back to
`playing`, same tab, next item on screen. -/
theorem winRound_fields (today : String) (r : WinRound) {st : GameState}
    (hp : st.gameStatus = Status.playing) (hi : isInfiniteTab st.activeTab)
    (hraw : (jsTrim r.raw.toList).isEmpty = false)
    (hc : evaluateGuess r.raw none st.movie = true) :
    (applyWinRound today r st).currentStreak = st.currentStreak + 1 ∧
    (applyWinRound today r st).gameStatus = Status.playing ∧
    (applyWinRound today r st).activeTab = st.activeTab ∧
    (applyWinRound today r st).movie = some r.next := by
  unfold applyWinRound
  dsimp only [step]
  have hp' : (inputFn r.raw st).gameStatus = Status.playing := hp
  have hraw' : (jsTrim (inputFn r.raw st).userGuess.toList).isEmpty = false := hraw
  have hc' : evaluateGuess (inputFn r.raw st).userGuess
      (inputFn r.raw st).selectedMovieFromAutocomplete (inputFn r.raw st).movie = true := hc
  rw [submit_correct_eq today r.now r.rands1 hp' hraw' hc']
  have hf := @validateWin_inf_fields today r.now (inputFn r.raw st) hi
  unfold infLoadedFn
  dsimp only
  split
  · refine ⟨?_, rfl, ?_, rfl⟩
    · show (validateGuessWin today r.now (inputFn r.raw st)).currentStreak
        = st.currentStreak + 1
      exact hf.1
    · show (validateGuessWin today r.now (inputFn r.raw st)).activeTab = st.activeTab
      exact hf.2.2.1
  · refine ⟨?_, rfl, ?_, rfl⟩
    · show (validateGuessWin today r.now (inputFn r.raw st)).currentStreak
        = st.currentStreak + 1
      exact hf.1
    · show (validateGuessWin today r.now (inputFn r.raw st)).activeTab = st.activeTab
      exact hf.2.2.1

/-- After `n` consecutive winning rounds the current streak has grown by
exactly `n`. -/
theorem winRounds_currentStreak (today : String) (rounds : List WinRound) :
    ∀ st : GameState, st.gameStatus = Status.playing → isInfiniteTab st.activeTab →
      AllCorrect today st rounds →
      (applyWinRounds today st rounds).currentStreak
        = st.currentStreak + rounds.length := by
  induction rounds with
  | nil =>
    intro st _ _ _
    simp [applyWinRounds]
  | cons r rest ih =>
    intro st hp hi hall
    obtain ⟨hraw, hc, hrest⟩ := hall
    have hf := winRound_fields today r hp hi hraw hc
    have htail := ih (applyWinRound today r st) hf.2.1 (by rw [hf.2.2.1]; exact hi) hrest
    show (applyWinRounds today (applyWinRound today r st) rest).currentStreak = _
    rw [htail, hf.1]
    simp
    omega

/-! ## Field characterizations of the loss / switch / ledger operations -/

theorem dTabOf_not_inf {t : Tab} {dt : DTab} (h : dTabOf t = some dt) :
    ¬ isInfiniteTab t := by
  cases t <;> simp [dTabOf, isInfiniteTab] at h ⊢

/-- Win and loss flag keys of the same (tab, media, day) tuple differ. -/
theorem dailyWin_ne_lossKey (dt : DTab) (media : Media) (t : String) :
    getDailyStoragePrefix dt true media ++ t ≠ getDailyStoragePrefix dt false media ++ t := by
  apply append_ne_append_of_length_ne
  cases dt <;> cases media <;> decide

/-- `confirmGiveUp` forces `lost` from any status; in infinite tabs it
zeroes the current streak; it never changes the best-streak counters. -/
theorem confirmGiveUp_fields (today : String) (now : Int) (st : GameState) :
    (confirmGiveUpFn today now st).gameStatus = Status.lost ∧
    (isInfiniteTab st.activeTab → (confirmGiveUpFn today now st).currentStreak = 0) ∧
    (confirmGiveUpFn today now st).todayBestStreak = st.todayBestStreak ∧
    (confirmGiveUpFn today now st).allTimeBestStreak = st.allTimeBestStreak := by
  unfold confirmGiveUpFn
  dsimp only
  obtain ⟨sm, stv, heq⟩ :=
    markSeen_eta now { st with gameStatus := .lost, showGiveUpConfirm := false }
  rw [heq]
  split
  · exact ⟨rfl, fun _ => rfl, rfl, rfl⟩
  · rename_i hninf
    split
    · exact ⟨rfl, fun hinf => absurd hinf hninf, rfl, rfl⟩
    · exact ⟨rfl, fun hinf => absurd hinf hninf, rfl, rfl⟩

/-- `confirmGiveUp` in a daily tab: the loss flag is written and any win
flag for the same tuple is removed, whatever the previous status was. -/
theorem confirmGiveUp_daily (today : String) (now : Int) {st : GameState} {dt : DTab}
    (hdt : dTabOf st.activeTab = some dt) :
    (confirmGiveUpFn today now st).store.getItem
      (getDailyStoragePrefix dt false st.mediaMode ++ today) = some "true" ∧
    (confirmGiveUpFn today now st).store.getItem
      (getDailyStoragePrefix dt true st.mediaMode ++ today) = none := by
  unfold confirmGiveUpFn
  dsimp only
  obtain ⟨sm, stv, heq⟩ :=
    markSeen_eta now { st with gameStatus := .lost, showGiveUpConfirm := false }
  rw [heq]
  rw [if_neg (dTabOf_not_inf (t := st.activeTab) hdt)]
  have hdt2 : dTabOf
      (GameState.activeTab
        { st with
          gameStatus := Status.lost
          showGiveUpConfirm := false
          seenMovies := sm
          seenTv := stv }) = some dt := hdt
  rw [hdt2]
  unfold markDailyLossFn
  dsimp only
  constructor
  · rw [removeItem_get_ne _ (dailyWin_ne_lossKey dt st.mediaMode today).symm,
        setItem_get_eq]
  · rw [removeItem_get_eq]

/-- `nextStep` below the last progression step: the index advances by one
and nothing else of the session outcome changes. -/
theorem nextStep_incr_fields (today : String) (now : Int) (rands : Nat → ℚ)
    {st : GameState} (h : st.currentStepIndex < progressionSteps.length - 1) :
    (nextStepFn today now rands st).currentStepIndex = st.currentStepIndex + 1 ∧
    (nextStepFn today now rands st).gameStatus = st.gameStatus := by
  unfold nextStepFn
  rw [if_pos h]
  dsimp only
  split
  · exact ⟨rfl, rfl⟩
  · exact ⟨rfl, rfl⟩

/-- `nextStep` at the last progression step: status becomes `lost`, the
index does not move, the streak is zeroed (infinite tabs) and the best
counters are untouched. -/
theorem nextStep_last_fields (today : String) (now : Int) (rands : Nat → ℚ)
    {st : GameState} (h : ¬ st.currentStepIndex < progressionSteps.length - 1) :
    (nextStepFn today now rands st).gameStatus = Status.lost ∧
    (nextStepFn today now rands st).currentStepIndex = st.currentStepIndex ∧
    (isInfiniteTab st.activeTab → (nextStepFn today now rands st).currentStreak = 0) ∧
    (nextStepFn today now rands st).todayBestStreak = st.todayBestStreak ∧
    (nextStepFn today now rands st).allTimeBestStreak = st.allTimeBestStreak := by
  unfold nextStepFn
  rw [if_neg h]
  dsimp only
  obtain ⟨sm, stv, heq⟩ := markSeen_eta now { st with gameStatus := .lost }
  rw [heq]
  split
  · exact ⟨rfl, rfl, fun _ => rfl, rfl, rfl⟩
  · rename_i hninf
    split
    · exact ⟨rfl, rfl, fun hinf => absurd hinf hninf, rfl, rfl⟩
    · exact ⟨rfl, rfl, fun hinf => absurd hinf hninf, rfl, rfl⟩

/-- The infinite fetch-failure loss (`loadInfiniteMovie`'s error callback)
sets status `lost` and leaves every streak counter unchanged — in
particular it does NOT zero the current streak. -/
theorem infFailed_fields (st : GameState) :
    (infFailedFn st).gameStatus = Status.lost ∧
    (infFailedFn st).currentStreak = st.currentStreak ∧
    (infFailedFn st).todayBestStreak = st.todayBestStreak ∧
    (infFailedFn st).allTimeBestStreak = st.allTimeBestStreak :=
  ⟨rfl, rfl, rfl, rfl⟩

/-- `syncDailyOutcome` only rewrites status/completion fields: tab, media,
confirmation flags and the store are untouched. -/
theorem syncDaily_fields (today : String) (dt : DTab) (st : GameState) :
    (syncDailyOutcomeFn today dt st).activeTab = st.activeTab ∧
    (syncDailyOutcomeFn today dt st).mediaMode = st.mediaMode ∧
    (syncDailyOutcomeFn today dt st).showLeaveConfirm = st.showLeaveConfirm ∧
    (syncDailyOutcomeFn today dt st).store = st.store := by
  unfold syncDailyOutcomeFn
  dsimp only
  split
  · exact ⟨rfl, rfl, rfl, rfl⟩
  · split
    · exact ⟨rfl, rfl, rfl, rfl⟩
    · exact ⟨rfl, rfl, rfl, rfl⟩

/-- An effective `switchTab` lands on the requested tab, never opens the
leave-confirmation prompt, and writes nothing to the store. -/
theorem switchTab_fields (today : String) (tab : Tab) (force : Bool) {st : GameState}
    (h : ¬(¬force = true ∧ st.activeTab = tab)) :
    (switchTabFn today tab force st).activeTab = tab ∧
    (switchTabFn today tab force st).showLeaveConfirm = st.showLeaveConfirm ∧
    (switchTabFn today tab force st).store = st.store := by
  unfold switchTabFn
  dsimp only
  rw [if_neg h]
  split
  · exact ⟨rfl, rfl, rfl⟩
  · split
    · rename_i dt hdt
      exact ⟨(syncDaily_fields today dt _).1, (syncDaily_fields today dt _).2.2.1,
             (syncDaily_fields today dt _).2.2.2⟩
    · exact ⟨rfl, rfl, rfl⟩

/-- `requestTabSwitch` to a different tab while an infinite tab is active:
the leave prompt opens and nothing else happens yet. -/
theorem requestTab_prompt (today : String) (tab : Tab) {st : GameState}
    (hne : st.activeTab ≠ tab) (hinf : isInfiniteTab st.activeTab) :
    (requestTabSwitchFn today tab st).showLeaveConfirm = true ∧
    (requestTabSwitchFn today tab st).activeTab = st.activeTab ∧
    (requestTabSwitchFn today tab st).store = st.store := by
  unfold requestTabSwitchFn
  rw [if_neg hne, if_pos hinf]
  exact ⟨rfl, rfl, rfl⟩

/-- `requestTabSwitch` to a different tab from a non-infinite tab: no
prompt, the switch happens at once, the store is untouched. -/
theorem requestTab_noPrompt (today : String) (tab : Tab) {st : GameState}
    (hne : st.activeTab ≠ tab) (hninf : ¬ isInfiniteTab st.activeTab) :
    (requestTabSwitchFn today tab st).showLeaveConfirm = st.showLeaveConfirm ∧
    (requestTabSwitchFn today tab st).activeTab = tab ∧
    (requestTabSwitchFn today tab st).store = st.store := by
  unfold requestTabSwitchFn
  rw [if_neg hne, if_neg hninf]
  have hf := @switchTab_fields today tab false st (by simp [hne])
  exact ⟨hf.2.1, hf.1, hf.2.2⟩

/-- `setMediaMode` to a different kind while an infinite tab is active:
prompt only. -/
theorem setMedia_prompt (today : String) (m : Media) {st : GameState}
    (hne : st.mediaMode ≠ m) (hinf : isInfiniteTab st.activeTab) :
    (setMediaModeFn today m st).showLeaveConfirm = true ∧
    (setMediaModeFn today m st).mediaMode = st.mediaMode ∧
    (setMediaModeFn today m st).store = st.store := by
  unfold setMediaModeFn
  rw [if_neg hne, if_pos hinf]
  exact ⟨rfl, rfl, rfl⟩

/-- `setMediaMode` from a non-infinite tab: no prompt, the kind switches,
and the only store write is the media preference — every persisted streak
counter reads back unchanged. -/
theorem setMedia_noPrompt (today : String) (m : Media) {st : GameState}
    (hne : st.mediaMode ≠ m) (hninf : ¬ isInfiniteTab st.activeTab) :
    (setMediaModeFn today m st).showLeaveConfirm = st.showLeaveConfirm ∧
    (setMediaModeFn today m st).mediaMode = m ∧
    (∀ (mode : InfMode) (media : Media),
      readIntKey (setMediaModeFn today m st).store
          (getStreakStorageKeys mode media).currentKey
        = readIntKey st.store (getStreakStorageKeys mode media).currentKey) := by
  unfold setMediaModeFn
  rw [if_neg hne, if_neg hninf]
  have hf := @switchTab_fields today st.activeTab true
    { st with mediaMode := m, store := st.store.setItem "mediaMode" (mediaStr m) }
    (by simp)
  refine ⟨hf.2.1, ?_, ?_⟩
  · have hmf : ∀ (tab : Tab) (force : Bool) (x : GameState),
        (switchTabFn today tab force x).mediaMode = x.mediaMode := by
      intro tab force x
      unfold switchTabFn
      dsimp only
      split
      · rfl
      · split
        · rfl
        · split
          · exact (syncDaily_fields today _ _).2.1
          · rfl
    rw [hmf]
  · intro mode media
    rw [hf.2.2]
    exact readIntKey_set_ne _ _ ((streak_key_ne_mediaMode today mode media).1)

/-- `markDailyWin` writes the win flag, removes the loss flag, and records
the completion date. -/
theorem markDailyWin_fields (today : String) (dt : DTab) (st : GameState) :
    (markDailyWinFn today dt st).store.getItem
      (getDailyStoragePrefix dt true st.mediaMode ++ today) = some "true" ∧
    (markDailyWinFn today dt st).store.getItem
      (getDailyStoragePrefix dt false st.mediaMode ++ today) = none ∧
    (markDailyWinFn today dt st).dailyCompleted = true ∧
    (markDailyWinFn today dt st).dailyCompletedDate = formatDateForDisplay today := by
  unfold markDailyWinFn
  dsimp only
  refine ⟨?_, ?_, rfl, rfl⟩
  · rw [removeItem_get_ne _ (dailyWin_ne_lossKey dt st.mediaMode today), setItem_get_eq]
  · rw [removeItem_get_eq]

/-- Re-deriving the session outcome from a store in which `markDailyWin`
just ran yields `won` with the same completion date. -/
theorem syncDaily_after_win (today : String) (dt : DTab) {st st2 : GameState}
    (hmedia : st2.mediaMode = st.mediaMode)
    (hstore : st2.store = (markDailyWinFn today dt st).store) :
    (syncDailyOutcomeFn today dt st2).gameStatus = Status.won ∧
    (syncDailyOutcomeFn today dt st2).dailyCompleted = true ∧
    (syncDailyOutcomeFn today dt st2).dailyCompletedDate = formatDateForDisplay today := by
  unfold syncDailyOutcomeFn
  dsimp only
  have hwon : st2.store.getItem (getDailyStoragePrefix dt true st2.mediaMode ++ today)
      = some "true" := by
    rw [hmedia, hstore]
    exact (markDailyWin_fields today dt st).1
  rw [if_pos hwon]
  exact ⟨rfl, rfl, rfl⟩

/-! ## Strip effect generator lemmas -/

theorem generateStripEffects_length (count : Nat) (rands : Nat → ℚ) :
    (generateStripEffects count rands).length = count := by
  unfold generateStripEffects
  simp

theorem generateStripEffects_get (count : Nat) (rands : Nat → ℚ) (i : Nat) (h : i < count) :
    (generateStripEffects count rands).getD i StripEffect.none = effectForRand (rands i) := by
  unfold generateStripEffects
  rw [List.getD_eq_getElem?_getD]
  simp [h]

theorem effectForRand_none_iff (r : ℚ) : effectForRand r = .none ↔ r < 4/10 := by
  unfold effectForRand
  split_ifs with h1 h2 h3
  · exact iff_of_true rfl h1
  · exact iff_of_false (by decide) h1
  · exact iff_of_false (by decide) h1
  · exact iff_of_false (by decide) h1

theorem effectForRand_rotate_iff (r : ℚ) :
    effectForRand r = .rotate180 ↔ 4/10 ≤ r ∧ r < 6/10 := by
  unfold effectForRand
  split_ifs with h1 h2 h3
  · exact iff_of_false (by decide) (by intro hx; linarith [hx.1])
  · exact iff_of_true rfl ⟨by linarith, h2⟩
  · exact iff_of_false (by decide) (by intro hx; linarith [hx.2])
  · exact iff_of_false (by decide) (by intro hx; linarith [hx.2])

theorem effectForRand_gray_iff (r : ℚ) :
    effectForRand r = .grayscale ↔ 6/10 ≤ r ∧ r < 8/10 := by
  unfold effectForRand
  split_ifs with h1 h2 h3
  · exact iff_of_false (by decide) (by intro hx; linarith [hx.1])
  · exact iff_of_false (by decide) (by intro hx; linarith [hx.1])
  · exact iff_of_true rfl ⟨by linarith, h3⟩
  · exact iff_of_false (by decide) (by intro hx; linarith [hx.2])

theorem effectForRand_black_iff (r : ℚ) :
    effectForRand r = .blackout ↔ 8/10 ≤ r := by
  unfold effectForRand
  split_ifs with h1 h2 h3
  · exact iff_of_false (by decide) (by intro hx; linarith)
  · exact iff_of_false (by decide) (by intro hx; linarith)
  · exact iff_of_false (by decide) (by intro hx; linarith)
  · exact iff_of_true rfl (by linarith)

/-- The bucket boundaries of the generator are `0.4`, `0.6`, `0.8`: the
none bucket has width 0.4 and the other three width 0.2 each. -/
theorem effectForRand_buckets (r : ℚ) :
    (effectForRand r = .none ↔ r < 4/10) ∧
    (effectForRand r = .rotate180 ↔ 4/10 ≤ r ∧ r < 6/10) ∧
    (effectForRand r = .grayscale ↔ 6/10 ≤ r ∧ r < 8/10) ∧
    (effectForRand r = .blackout ↔ 8/10 ≤ r) :=
  ⟨effectForRand_none_iff r, effectForRand_rotate_iff r,
   effectForRand_gray_iff r, effectForRand_black_iff r⟩

/-! ## Deterministic picker lemmas -/

theorem pseudoRandom_nonneg (sinq : ℤ → ℚ) (seed : ℤ) : 0 ≤ pseudoRandom sinq seed := by
  unfold pseudoRandom
  have hf : (0 : ℚ) ≤ Int.fract (sinq seed * 10000) := Int.fract_nonneg _
  have : (0 : ℚ) ≤ Int.fract (sinq seed * 10000) * 1000000 := by positivity
  exact Int.le_floor.mpr (by exact_mod_cast this)

theorem dailyPage_bounds (sinq : ℤ → ℚ) (sb : ℤ) :
    1 ≤ dailyPage sinq sb ∧ dailyPage sinq sb ≤ 50 := by
  unfold dailyPage
  have h0 : 0 ≤ pseudoRandom sinq (sb + 9999) % 50 :=
    Int.emod_nonneg _ (by norm_num)
  have h1 : pseudoRandom sinq (sb + 9999) % 50 < 50 :=
    Int.emod_lt_of_pos _ (by norm_num)
  omega

/-! # The claims -/

/-- C8: Title normalization is idempotent: for every string `s` and both
values of the `dropArticles` flag `d`,
`normalize(normalize(s, d), d) == normalize(s, d)`. -/
theorem C8_normalize_idempotent (s : String) (d : Bool) :
    normalizeTitle (normalizeTitle s d) d = normalizeTitle s d := by
  unfold normalizeTitle
  congr 1
  exact normalizeList_fixes d (fun c hc => mem_normalizeList_isLowerAlnum hc)

/-- C6: Given the target `{title: "Inception", original_title: "Inception",
release_date: "2010-07-14"}` and no autocomplete selection, the evaluator
classifies `"inception 2010"` as correct and `"Inception 2011"` (wrong
year) as incorrect. -/
theorem C6_inception_vectors :
    evaluateGuess "inception 2010" none (some inceptionMovie) = true ∧
    evaluateGuess "Inception 2011" none (some inceptionMovie) = false := by
  exact ⟨by decide, by decide⟩

/-- C4 counterexample: the raw guess `"win 1999"` has normalized title
fragment exactly `"win"`, yet against the 2010-dated Inception target the
evaluator classifies it as INCORRECT (the year gate also applies to the
`"win"` literal), refuting "for every target item". -/
theorem C4_counterexample :
    normalizeTitle (extractGuess "win 1999").1 false = "win" ∧
    evaluateGuess "win 1999" none (some inceptionMovie) = false := by
  exact ⟨by decide, by decide⟩

/-- C4 (amended): a free-text guess whose normalized title fragment is the
literal `"win"` is classified correct for every target item, provided the
guess's extracted year — when present — is compatible with the target's
year (equal, or either side unknown). -/
theorem C4_win_literal (raw : String) (target : Option MovieT)
    (hwin : normalizeTitle (extractGuess raw).1 false = "win")
    (hyear : (extractGuess raw).2 = "" ∨
      (target.map (fun t => yearOf t.release_date)).getD "" = "" ∨
      (extractGuess raw).2 = (target.map (fun t => yearOf t.release_date)).getD "") :
    evaluateGuess raw none target = true := by
  cases target with
  | none =>
    unfold evaluateGuess
    dsimp only
    simp [hwin]
  | some tgt =>
    unfold evaluateGuess
    dsimp only
    rcases hyear with hy | hy | hy
    · simp [hwin, hy]
    · have hy2 : yearOf tgt.release_date = "" := hy
      simp [hwin, hy2]
    · have hy2 : (extractGuess raw).2 = yearOf tgt.release_date := hy
      simp [hwin, hy2]

/-- C4 witness: the plain raw guess `"win"` (no year token) is accepted
against the Inception target. -/
theorem C4_witness :
    normalizeTitle (extractGuess "win").1 false = "win" ∧
    evaluateGuess "win" none (some inceptionMovie) = true :=
  ⟨by decide, C4_win_literal "win" (some inceptionMovie) (by decide) (Or.inl (by decide))⟩

/-- C1 counterexample: at the uniform draw `0.3` the generator emits no
effect (`''`), while four equal 25% buckets in the claimed order would
emit `rotate180` — the bucket boundaries are not 0.25/0.5/0.75. -/
theorem C1_counterexample :
    generateStripEffects 1 (fun _ => 3/10) = [StripEffect.none] ∧
    effectForRandSpec (3/10) = StripEffect.rotate180 ∧
    effectForRand (3/10) ≠ effectForRandSpec (3/10) := by
  refine ⟨?_, ?_, ?_⟩ <;>
    norm_num [generateStripEffects, effectForRand, effectForRandSpec, List.range_succ] <;>
    decide

/-- C1 (amended): the hard-variant strip effect generator assigns each
strip independently from one uniform draw in `[0,1)`, produces exactly the
requested number of strips, and maps the draw through the bucket
boundaries 0.4 / 0.6 / 0.8 in the order none, flip (`rotate180`),
desaturate (`grayscale`), obscure (`blackout`) — i.e. none has probability
0.4 and each other effect 0.2. -/
theorem C1_strip_effects (count : Nat) (rands : Nat → ℚ) (r : ℚ)
    (h0 : 0 ≤ r) (h1 : r < 1) :
    (generateStripEffects count rands).length = count ∧
    (∀ i, i < count →
      (generateStripEffects count rands).getD i StripEffect.none
        = effectForRand (rands i)) ∧
    (effectForRand r = .none ↔ 0 ≤ r ∧ r < 4/10) ∧
    (effectForRand r = .rotate180 ↔ 4/10 ≤ r ∧ r < 6/10) ∧
    (effectForRand r = .grayscale ↔ 6/10 ≤ r ∧ r < 8/10) ∧
    (effectForRand r = .blackout ↔ 8/10 ≤ r ∧ r < 1) := by
  have hb := effectForRand_buckets r
  refine ⟨generateStripEffects_length count rands,
          fun i hi => generateStripEffects_get count rands i hi, ?_, hb.2.1, hb.2.2.1, ?_⟩
  · rw [hb.1]
    constructor
    · intro h; exact ⟨h0, h⟩
    · intro h; exact h.2
  · rw [hb.2.2.2]
    constructor
    · intro h; exact ⟨h, h1⟩
    · intro h; exact h.1

/-- C1 witness: the amended bucket facts at the concrete draw `1/2` and
strip count 2. -/
theorem C1_witness :
    (0 : ℚ) ≤ 1/2 ∧ (1/2 : ℚ) < 1 ∧
    ((generateStripEffects 2 (fun _ => 1/2)).length = 2 ∧
     (∀ i, i < 2 →
       (generateStripEffects 2 (fun _ => 1/2)).getD i StripEffect.none
         = effectForRand ((fun _ : Nat => (1/2 : ℚ)) i)) ∧
     (effectForRand (1/2) = .none ↔ 0 ≤ (1/2 : ℚ) ∧ (1/2 : ℚ) < 4/10) ∧
     (effectForRand (1/2) = .rotate180 ↔ 4/10 ≤ (1/2 : ℚ) ∧ (1/2 : ℚ) < 6/10) ∧
     (effectForRand (1/2) = .grayscale ↔ 6/10 ≤ (1/2 : ℚ) ∧ (1/2 : ℚ) < 8/10) ∧
     (effectForRand (1/2) = .blackout ↔ 8/10 ≤ (1/2 : ℚ) ∧ (1/2 : ℚ) < 1)) :=
  ⟨by norm_num, by norm_num,
   C1_strip_effects 2 (fun _ => 1/2) (1/2) (by norm_num) (by norm_num)⟩

/-- C7: for a fixed seed base (date + mode offset) and fixed page content
size, the picker's `(page, index)` pair is a pure function of its inputs
(identical on repeated runs), the page always lies in `1..50`, and for the
same date the daily (offset 0) and daily-hard (offset 12345) seed bases
never coincide. `Math.sin` is modelled as an arbitrary fixed function
`sinq`; none of these properties depend on its values. -/
theorem C7_picker (sinq : ℤ → ℚ) (sb1 sb2 : ℤ) (c1 c2 : ℕ)
    (hsb : sb1 = sb2) (hc : c1 = c2) :
    pickDaily sinq sb1 c1 = pickDaily sinq sb2 c2 ∧
    1 ≤ dailyPage sinq sb1 ∧ dailyPage sinq sb1 ≤ 50 ∧
    (∀ y m d : ℤ, seedBase y m d dailyOffset ≠ seedBase y m d dailyHardOffset) := by
  subst hsb
  subst hc
  refine ⟨rfl, (dailyPage_bounds sinq sb1).1, (dailyPage_bounds sinq sb1).2, ?_⟩
  intro y m d
  unfold seedBase dailyOffset dailyHardOffset
  omega

/-- C7 witness: the picker facts at the concrete seed base of 2025-01-01
(daily offset) and a 20-item page. -/
theorem C7_witness :
    (20250101 : ℤ) = 20250101 ∧ (20 : ℕ) = 20 ∧
    (pickDaily (fun _ => 0) 20250101 20 = pickDaily (fun _ => 0) 20250101 20 ∧
     1 ≤ dailyPage (fun _ => 0) 20250101 ∧ dailyPage (fun _ => 0) 20250101 ≤ 50 ∧
     (∀ y m d : ℤ, seedBase y m d dailyOffset ≠ seedBase y m d dailyHardOffset)) :=
  ⟨rfl, rfl, C7_picker (fun _ => 0) 20250101 20250101 20 20 rfl rfl⟩

/-- C5: for every (daily | daily-hard, media kind, day) tuple, marking the
day won writes the win flag, removes any previously stored loss flag, and
re-deriving the session state from storage alone (`syncDailyOutcome`)
yields status `won` with the same completion date string. -/
theorem C5_daily_roundtrip (today : String) (dt : DTab) (st st2 : GameState)
    (hmedia : st2.mediaMode = st.mediaMode)
    (hstore : st2.store = (markDailyWinFn today dt st).store) :
    (markDailyWinFn today dt st).store.getItem
      (getDailyStoragePrefix dt true st.mediaMode ++ today) = some "true" ∧
    (markDailyWinFn today dt st).store.getItem
      (getDailyStoragePrefix dt false st.mediaMode ++ today) = none ∧
    (syncDailyOutcomeFn today dt st2).gameStatus = Status.won ∧
    (syncDailyOutcomeFn today dt st2).dailyCompleted = true ∧
    (syncDailyOutcomeFn today dt st2).dailyCompletedDate
      = (markDailyWinFn today dt st).dailyCompletedDate := by
  have h1 := markDailyWin_fields today dt st
  have h2 := syncDaily_after_win today dt hmedia hstore
  refine ⟨h1.1, h1.2.1, h2.1, h2.2.1, ?_⟩
  rw [h2.2.2, h1.2.2.2]

/-- C5 witness: the round trip on a fresh profile, daily movie mode, day
`20250101`. -/
theorem C5_witness :
    (GameState.mediaMode
        { initState demoDay Store.emptyStore with
          store := (markDailyWinFn demoDay DTab.daily (initState demoDay Store.emptyStore)).store }
      = (initState demoDay Store.emptyStore).mediaMode) ∧
    (GameState.store
        { initState demoDay Store.emptyStore with
          store := (markDailyWinFn demoDay DTab.daily (initState demoDay Store.emptyStore)).store }
      = (markDailyWinFn demoDay DTab.daily (initState demoDay Store.emptyStore)).store) ∧
    ((markDailyWinFn demoDay DTab.daily (initState demoDay Store.emptyStore)).store.getItem
        (getDailyStoragePrefix DTab.daily true
          (initState demoDay Store.emptyStore).mediaMode ++ demoDay) = some "true" ∧
     (markDailyWinFn demoDay DTab.daily (initState demoDay Store.emptyStore)).store.getItem
        (getDailyStoragePrefix DTab.daily false
          (initState demoDay Store.emptyStore).mediaMode ++ demoDay) = none ∧
     (syncDailyOutcomeFn demoDay DTab.daily
        { initState demoDay Store.emptyStore with
          store := (markDailyWinFn demoDay DTab.daily
            (initState demoDay Store.emptyStore)).store }).gameStatus = Status.won ∧
     (syncDailyOutcomeFn demoDay DTab.daily
        { initState demoDay Store.emptyStore with
          store := (markDailyWinFn demoDay DTab.daily
            (initState demoDay Store.emptyStore)).store }).dailyCompleted = true ∧
     (syncDailyOutcomeFn demoDay DTab.daily
        { initState demoDay Store.emptyStore with
          store := (markDailyWinFn demoDay DTab.daily
            (initState demoDay Store.emptyStore)).store }).dailyCompletedDate
       = (markDailyWinFn demoDay DTab.daily
            (initState demoDay Store.emptyStore)).dailyCompletedDate) :=
  ⟨rfl, rfl,
   C5_daily_roundtrip demoDay DTab.daily (initState demoDay Store.emptyStore) _ rfl rfl⟩

/-- C9: confirming give-up has no precondition on the game status: from
any state whatsoever it sets status to `lost`, and in a daily tab it
records the day's loss flag and removes a previously recorded win flag for
the same (mode, media, day) tuple. -/
theorem C9_confirm_giveup (today : String) (now : Int) (st : GameState) (dt : DTab)
    (hdt : dTabOf st.activeTab = some dt) :
    (∀ st' : GameState, (confirmGiveUpFn today now st').gameStatus = Status.lost) ∧
    (confirmGiveUpFn today now st).store.getItem
      (getDailyStoragePrefix dt false st.mediaMode ++ today) = some "true" ∧
    (confirmGiveUpFn today now st).store.getItem
      (getDailyStoragePrefix dt true st.mediaMode ++ today) = none := by
  refine ⟨fun st' => (confirmGiveUp_fields today now st').1, ?_, ?_⟩
  · exact (confirmGiveUp_daily today now hdt).1
  · exact (confirmGiveUp_daily today now hdt).2

/-- C9 witness: giving up from the freshly initialized daily session
(status `loading`, not `playing`) marks the daily loss. -/
theorem C9_witness :
    dTabOf (initState demoDay Store.emptyStore).activeTab = some DTab.daily ∧
    ((∀ st' : GameState, (confirmGiveUpFn demoDay 0 st').gameStatus = Status.lost) ∧
     (confirmGiveUpFn demoDay 0 (initState demoDay Store.emptyStore)).store.getItem
       (getDailyStoragePrefix DTab.daily false
         (initState demoDay Store.emptyStore).mediaMode ++ demoDay) = some "true" ∧
     (confirmGiveUpFn demoDay 0 (initState demoDay Store.emptyStore)).store.getItem
       (getDailyStoragePrefix DTab.daily true
         (initState demoDay Store.emptyStore).mediaMode ++ demoDay) = none) :=
  ⟨rfl, C9_confirm_giveup demoDay 0 (initState demoDay Store.emptyStore) DTab.daily rfl⟩

/-- C2 counterexample: from a reachable state in which the infinite-mode
session is already WON (not `playing`), requesting a tab switch still
opens the leave-confirmation prompt — the code keys the prompt on the
active tab, not on the status, refuting "if and only if ... status
playing". -/
theorem C2_counterexample :
    Reachable demoDay Store.emptyStore demoWonState ∧
    demoWonState.gameStatus = Status.won ∧
    demoWonState.activeTab = Tab.infinite ∧
    demoWonState.showLeaveConfirm = false ∧
    (step demoDay demoWonState (Ev.requestTab Tab.daily)).showLeaveConfirm = true := by
  refine ⟨?_, by decide, by decide, by decide, by decide⟩
  exact .step _ (.step _ (.step _ (.step _ .init)))

/-- C2 (amended): requesting a tab or media-kind switch prompts for
confirmation iff the active tab is an infinite variant — regardless of the
session's status; a switch away from a non-infinite tab proceeds at once
without confirmation, with no store write at all for a tab switch, and for
a media switch only the media preference is written (every persisted
current-streak counter reads back unchanged). -/
theorem C2_switch_confirmation (today : String) (tab : Tab) (m : Media) (st : GameState)
    (hlc : st.showLeaveConfirm = false) :
    (tab ≠ st.activeTab →
      (((requestTabSwitchFn today tab st).showLeaveConfirm = true) ↔
        isInfiniteTab st.activeTab) ∧
      (¬ isInfiniteTab st.activeTab →
        (requestTabSwitchFn today tab st).activeTab = tab ∧
        (requestTabSwitchFn today tab st).store = st.store)) ∧
    (m ≠ st.mediaMode →
      (((setMediaModeFn today m st).showLeaveConfirm = true) ↔
        isInfiniteTab st.activeTab) ∧
      (¬ isInfiniteTab st.activeTab →
        (setMediaModeFn today m st).mediaMode = m ∧
        ∀ (mode : InfMode) (media : Media),
          readIntKey (setMediaModeFn today m st).store
              (getStreakStorageKeys mode media).currentKey
            = readIntKey st.store (getStreakStorageKeys mode media).currentKey)) := by
  constructor
  · intro hne
    constructor
    · by_cases hinf : isInfiniteTab st.activeTab
      · simp [(requestTab_prompt today tab (Ne.symm hne) hinf).1, hinf]
      · simp [(requestTab_noPrompt today tab (Ne.symm hne) hinf).1, hinf, hlc]
    · intro hninf
      exact ⟨(requestTab_noPrompt today tab (Ne.symm hne) hninf).2.1,
             (requestTab_noPrompt today tab (Ne.symm hne) hninf).2.2⟩
  · intro hne
    constructor
    · by_cases hinf : isInfiniteTab st.activeTab
      · simp [(setMedia_prompt today m (Ne.symm hne) hinf).1, hinf]
      · simp [(setMedia_noPrompt today m (Ne.symm hne) hinf).1, hinf, hlc]
    · intro hninf
      exact ⟨(setMedia_noPrompt today m (Ne.symm hne) hninf).2.1,
             (setMedia_noPrompt today m (Ne.symm hne) hninf).2.2⟩

/-- C2 witness: the amended characterization at the demo won-state (an
infinite tab with a finished session). -/
theorem C2_witness :
    demoWonState.showLeaveConfirm = false ∧
    ((Tab.daily ≠ demoWonState.activeTab →
      (((requestTabSwitchFn demoDay Tab.daily demoWonState).showLeaveConfirm = true) ↔
        isInfiniteTab demoWonState.activeTab) ∧
      (¬ isInfiniteTab demoWonState.activeTab →
        (requestTabSwitchFn demoDay Tab.daily demoWonState).activeTab = Tab.daily ∧
        (requestTabSwitchFn demoDay Tab.daily demoWonState).store = demoWonState.store)) ∧
    (Media.tv ≠ demoWonState.mediaMode →
      (((setMediaModeFn demoDay Media.tv demoWonState).showLeaveConfirm = true) ↔
        isInfiniteTab demoWonState.activeTab) ∧
      (¬ isInfiniteTab demoWonState.activeTab →
        (setMediaModeFn demoDay Media.tv demoWonState).mediaMode = Media.tv ∧
        ∀ (mode : InfMode) (media : Media),
          readIntKey (setMediaModeFn demoDay Media.tv demoWonState).store
              (getStreakStorageKeys mode media).currentKey
            = readIntKey demoWonState.store
                (getStreakStorageKeys mode media).currentKey))) :=
  ⟨by decide, C2_switch_confirmation demoDay Tab.daily Media.tv demoWonState (by decide)⟩

/-- C3 counterexample, refuting the claim twice. (a) A session on day
`20250101` wins once (persisting a current streak of 1), and a fresh
session started from the resulting store on day `20250102` loads
currentStreak 1 but todayBestStreak 0 — a reachable session state with
`todayBestStreak < currentStreak`. (b) Continuing the day-1 session
instead: requesting the next infinite item and having its fetch fail
reaches a reachable `lost` state in the infinite tab whose currentStreak
is still 1 — a transition to lost that does not set currentStreak to 0. -/
theorem C3_counterexample :
    Reachable demoDay Store.emptyStore demoWonState ∧
    Reachable "20250102" demoStore demoNextDayState ∧
    demoNextDayState.todayBestStreak < demoNextDayState.currentStreak ∧
    Reachable demoDay Store.emptyStore demoFailedState ∧
    demoFailedState.gameStatus = Status.lost ∧
    demoFailedState.activeTab = Tab.infinite ∧
    demoFailedState.currentStreak = 1 := by
  refine ⟨?_, .init, by decide, ?_, by decide, by decide, by decide⟩
  · exact .step _ (.step _ (.step _ (.step _ .init)))
  · exact .step _ (.step _ (.step _ (.step _ (.step _ (.step _ .init)))))

/-- C3 (amended): (i) in every session state reachable from a store whose
persisted streak triples are day-consistent for the session's day (stored
current ≤ stored today-best, all counters ≥ 0 — e.g. a fresh store, or one
last saved on the same day), `todayBestStreak ≥ currentStreak ≥ 0`; (ii)
after `N` consecutive correct guesses from a zero-streak playing
infinite-mode state, `currentStreak = N`; (iii) the player-driven loss
transitions (give up confirmed, attempts exhausted) set the status to
`lost`, zero the current streak in infinite tabs, and never change — in
particular never decrease — `todayBestStreak` or `allTimeBestStreak`;
(iv) the remaining transition to lost, the infinite fetch failure, sets
the status to `lost` leaving every streak counter unchanged — so it too
never decreases the bests, but it does NOT zero the current streak.
Without the store condition, (i) fails: a current streak persisted on an
earlier day is reloaded on a later day whose today-best starts at 0. -/
theorem C3_streak_invariants (today : String) (s0 : Store) (st stp stl : GameState)
    (rounds : List WinRound) (now : Int) (rands : Nat → ℚ)
    (hinv : StreakStoreInv today s0) (hr : Reachable today s0 st)
    (hp : stp.gameStatus = Status.playing) (hi : isInfiniteTab stp.activeTab)
    (hz : stp.currentStreak = 0) (hall : AllCorrect today stp rounds)
    (hlast : ¬ stl.currentStepIndex < progressionSteps.length - 1) :
    (0 ≤ st.currentStreak ∧ st.currentStreak ≤ st.todayBestStreak) ∧
    ((applyWinRounds today stp rounds).currentStreak = rounds.length) ∧
    ((confirmGiveUpFn today now stl).gameStatus = Status.lost ∧
     (isInfiniteTab stl.activeTab → (confirmGiveUpFn today now stl).currentStreak = 0) ∧
     (confirmGiveUpFn today now stl).todayBestStreak = stl.todayBestStreak ∧
     (confirmGiveUpFn today now stl).allTimeBestStreak = stl.allTimeBestStreak) ∧
    ((nextStepFn today now rands stl).gameStatus = Status.lost ∧
     (isInfiniteTab stl.activeTab → (nextStepFn today now rands stl).currentStreak = 0) ∧
     (nextStepFn today now rands stl).todayBestStreak = stl.todayBestStreak ∧
     (nextStepFn today now rands stl).allTimeBestStreak = stl.allTimeBestStreak) ∧
    ((infFailedFn stl).gameStatus = Status.lost ∧
     (infFailedFn stl).currentStreak = stl.currentStreak ∧
     (infFailedFn stl).todayBestStreak = stl.todayBestStreak ∧
     (infFailedFn stl).allTimeBestStreak = stl.allTimeBestStreak) := by
  have hsi := streakInv_reachable today hinv hr
  have hrounds := winRounds_currentStreak today rounds stp hp hi hall
  have hg := confirmGiveUp_fields today now stl
  have hn := nextStep_last_fields today now rands hlast
  refine ⟨⟨hsi.1, hsi.2.1⟩, ?_, ⟨hg.1, hg.2.1, hg.2.2.1, hg.2.2.2⟩,
          ⟨hn.1, hn.2.2.1, hn.2.2.2.1, hn.2.2.2.2⟩, infFailed_fields stl⟩
  rw [hrounds, hz]
  omega

/-- C3 witness: the invariants at the demo session — fresh store, the
playing zero-streak state after entering infinite mode, one winning round,
and a state at the last progression step. -/
theorem C3_witness :
    StreakStoreInv demoDay Store.emptyStore ∧
    Reachable demoDay Store.emptyStore (initState demoDay Store.emptyStore) ∧
    demoPlayingState.gameStatus = Status.playing ∧
    isInfiniteTab demoPlayingState.activeTab ∧
    demoPlayingState.currentStreak = 0 ∧
    AllCorrect demoDay demoPlayingState [demoRound] ∧
    (¬ (GameState.currentStepIndex { demoWonState with currentStepIndex := 4 })
        < progressionSteps.length - 1) ∧
    ((0 ≤ (initState demoDay Store.emptyStore).currentStreak ∧
      (initState demoDay Store.emptyStore).currentStreak
        ≤ (initState demoDay Store.emptyStore).todayBestStreak) ∧
     ((applyWinRounds demoDay demoPlayingState [demoRound]).currentStreak
        = ([demoRound] : List WinRound).length) ∧
     ((confirmGiveUpFn demoDay 0 { demoWonState with currentStepIndex := 4 }).gameStatus
        = Status.lost ∧
      (isInfiniteTab (GameState.activeTab { demoWonState with currentStepIndex := 4 }) →
        (confirmGiveUpFn demoDay 0 { demoWonState with currentStepIndex := 4 }).currentStreak
          = 0) ∧
      (confirmGiveUpFn demoDay 0 { demoWonState with currentStepIndex := 4 }).todayBestStreak
        = (GameState.todayBestStreak { demoWonState with currentStepIndex := 4 }) ∧
      (confirmGiveUpFn demoDay 0 { demoWonState with currentStepIndex := 4 }).allTimeBestStreak
        = (GameState.allTimeBestStreak { demoWonState with currentStepIndex := 4 })) ∧
     ((nextStepFn demoDay 0 rsZero { demoWonState with currentStepIndex := 4 }).gameStatus
        = Status.lost ∧
      (isInfiniteTab (GameState.activeTab { demoWonState with currentStepIndex := 4 }) →
        (nextStepFn demoDay 0 rsZero
          { demoWonState with currentStepIndex := 4 }).currentStreak = 0) ∧
      (nextStepFn demoDay 0 rsZero
          { demoWonState with currentStepIndex := 4 }).todayBestStreak
        = (GameState.todayBestStreak { demoWonState with currentStepIndex := 4 }) ∧
      (nextStepFn demoDay 0 rsZero
          { demoWonState with currentStepIndex := 4 }).allTimeBestStreak
        = (GameState.allTimeBestStreak { demoWonState with currentStepIndex := 4 })) ∧
     ((infFailedFn { demoWonState with currentStepIndex := 4 }).gameStatus
        = Status.lost ∧
      (infFailedFn { demoWonState with currentStepIndex := 4 }).currentStreak
        = (GameState.currentStreak { demoWonState with currentStepIndex := 4 }) ∧
      (infFailedFn { demoWonState with currentStepIndex := 4 }).todayBestStreak
        = (GameState.todayBestStreak { demoWonState with currentStepIndex := 4 }) ∧
      (infFailedFn { demoWonState with currentStepIndex := 4 }).allTimeBestStreak
        = (GameState.allTimeBestStreak { demoWonState with currentStepIndex := 4 }))) :=
  ⟨streakStoreInv_emptyStore demoDay, .init, by decide, by decide, by decide,
   ⟨by decide, by decide, trivial⟩, by decide,
   C3_streak_invariants demoDay Store.emptyStore (initState demoDay Store.emptyStore)
     demoPlayingState { demoWonState with currentStepIndex := 4 } [demoRound] 0 rsZero
     (streakStoreInv_emptyStore demoDay) .init (by decide) (by decide) (by decide)
     ⟨by decide, by decide, trivial⟩ (by decide)⟩

/-- C10: every reachable session state keeps the current step index within
`0 ≤ i ≤ progressionSteps.length - 1` (i.e. `0..4`), so indexing the
progression schedule to compute the strip count is always defined; the
attempt advance increments the index exactly when it is strictly below the
last step, and otherwise transitions to `lost` without incrementing. -/
theorem C10_step_index_bounds (today : String) (s0 : Store) (st : GameState)
    (now : Int) (rands : Nat → ℚ) (hr : Reachable today s0 st) :
    st.currentStepIndex ≤ progressionSteps.length - 1 ∧
    st.currentStepIndex < progressionSteps.length ∧
    (st.currentStepIndex < progressionSteps.length - 1 →
      (nextStepFn today now rands st).currentStepIndex = st.currentStepIndex + 1 ∧
      (nextStepFn today now rands st).gameStatus = st.gameStatus) ∧
    (¬ st.currentStepIndex < progressionSteps.length - 1 →
      (nextStepFn today now rands st).gameStatus = Status.lost ∧
      (nextStepFn today now rands st).currentStepIndex = st.currentStepIndex) := by
  have hidx : st.currentStepIndex < 5 := idxInv_reachable today hr
  refine ⟨?_, hidx, fun h => nextStep_incr_fields today now rands h, fun h =>
    ⟨(nextStep_last_fields today now rands h).1,
     (nextStep_last_fields today now rands h).2.1⟩⟩
  show st.currentStepIndex ≤ 4
  omega

/-- C10 witness: the bounds at the freshly initialized session. -/
theorem C10_witness :
    Reachable demoDay Store.emptyStore (initState demoDay Store.emptyStore) ∧
    ((initState demoDay Store.emptyStore).currentStepIndex
        ≤ progressionSteps.length - 1 ∧
     (initState demoDay Store.emptyStore).currentStepIndex < progressionSteps.length ∧
     ((initState demoDay Store.emptyStore).currentStepIndex
          < progressionSteps.length - 1 →
       (nextStepFn demoDay 0 rsZero
           (initState demoDay Store.emptyStore)).currentStepIndex
         = (initState demoDay Store.emptyStore).currentStepIndex + 1 ∧
       (nextStepFn demoDay 0 rsZero (initState demoDay Store.emptyStore)).gameStatus
         = (initState demoDay Store.emptyStore).gameStatus) ∧
     (¬ (initState demoDay Store.emptyStore).currentStepIndex
          < progressionSteps.length - 1 →
       (nextStepFn demoDay 0 rsZero (initState demoDay Store.emptyStore)).gameStatus
         = Status.lost ∧
       (nextStepFn demoDay 0 rsZero
           (initState demoDay Store.emptyStore)).currentStepIndex
         = (initState demoDay Store.emptyStore).currentStepIndex)) :=
  ⟨.init, C10_step_index_bounds demoDay Store.emptyStore
    (initState demoDay Store.emptyStore) 0 rsZero .init⟩
